import Mathlib

/-!
Verification development for the BusinessStrategySimulator repository.

The repository contains five Python variants of a turn-based business /
portfolio strategy simulator.  This file shallowly embeds the numeric core of
those variants (entity model, adaptive opponent, turn resolver, orchestration
loop, input parsers) in Lean and proves properties about the embedding.

Modelling conventions:
* Python floats are modelled as rationals; all arithmetic in the sources is
  +, -, *, /, min, max, int(), round(), // on small values, so this is exact.
* Python int(x) truncates toward zero: `pyTrunc`.
* Python x // y on integers is floor division: `Int.fdiv`.
* Calls to the random module are modelled by explicit per-turn oracle
  structures; calls of the form random.random() < p become Bool oracle fields
  and random.uniform(a, b) becomes a rational oracle field whose validity
  predicate constrains it to the interval.
* Python exceptions are modelled with Option / Except.
* GUI strings are modelled as Char lists.
-/

namespace BSS

/-- Python int() applied to a float: truncation toward zero (the floor for
nonnegative arguments and the ceiling, written as a negated floor, for
negative ones). -/
def pyTrunc (q : ℚ) : ℤ := if 0 ≤ q then q.floor else -((-q).floor)

/-- Clamp max(0, min(1, q)) used throughout the sources for the bounded
scalars sentiment, stress, liquidity. -/
def clamp01 (q : ℚ) : ℚ := max 0 (min 1 q)

/-- Round a rational to the nearest integer, ties to even, as Python round(). -/
def roundHalfEven (q : ℚ) : ℤ :=
  let f := q.floor
  let r := q - (f : ℚ)
  if r < 1/2 then f else if 1/2 < r then f + 1 else if f % 2 = 0 then f else f + 1

/-- Python round(x, 2) on an exact rational. -/
def pyRound2 (q : ℚ) : ℚ := ((roundHalfEven (q * 100) : ℚ)) / 100

/-- Whitespace test used to model Python str.strip(). -/
def isSpaceChar (c : Char) : Bool := c == ' ' || c == '\t' || c == '\n' || c == '\r'

/-- Decimal digit test. -/
def isDigitChar (c : Char) : Bool := '0' ≤ c && c ≤ '9'

/-- Numeric value of a decimal digit character. -/
def digitVal (c : Char) : ℕ := c.toNat - '0'.toNat

/-- Parse a nonempty all-digit character list as a natural number. -/
def digitsToNat (cs : List Char) : Option ℕ :=
  if cs = [] then none
  else if cs.all isDigitChar then some (cs.foldl (fun a c => 10 * a + digitVal c) 0)
  else none

/-- Python str.strip(): drop whitespace at both ends. -/
def pyStrip (cs : List Char) : List Char :=
  ((cs.dropWhile isSpaceChar).reverse.dropWhile isSpaceChar).reverse

/-- Python int(s) restricted to plain decimal strings: strip, optional
sign, ASCII digits; None models the ValueError raised on malformed input.
This is stricter than Python (it rejects underscore separators and
non-ASCII digits), so it is used only where a successful parse is
load-bearing: every concrete input fed to it below is a plain decimal
string on which it agrees with the source. -/
def pyParseInt (cs : List Char) : Option ℤ :=
  match pyStrip cs with
  | '-' :: rest => (digitsToNat rest).map fun n => -(n : ℤ)
  | '+' :: rest => (digitsToNat rest).map fun n => (n : ℤ)
  | rest => (digitsToNat rest).map fun n => (n : ℤ)

/-- Helper for splitting a character list on the slash separator. -/
def splitSlashGo : List Char → List Char → List (List Char)
  | [], cur => [cur.reverse]
  | c :: rest, cur =>
      if c = '/' then cur.reverse :: splitSlashGo rest []
      else splitSlashGo rest (c :: cur)

/-- Python s.split on the slash character. -/
def splitSlash (cs : List Char) : List (List Char) := splitSlashGo cs []

/-- The list comprehension int(x) for x in dist.strip().split slash-wise;
None models the exception caught by the parsers' try/except. -/
def parseEntriesInt (cs : List Char) : Option (List ℤ) :=
  (splitSlash (pyStrip cs)).mapM pyParseInt

/-- BusinessSimulatorGUI.parse_invest_dist of variants 001 and 002: parse the
slash-separated integers (falling back to the default distribution on any
parse failure), rescale by x*100 // total when the total is positive and not
100, and zero-pad to 7 entries. -/
def parse_invest_dist (dist : List Char) : List ℤ :=
  let result := (parseEntriesInt dist).getD [30, 20, 15, 10, 15, 5, 5]
  let total := result.sum
  if total ≠ 100 ∧ 0 < total then
    let scaled := result.map fun x => Int.fdiv (x * 100) total
    scaled ++ List.replicate (7 - scaled.length) 0
  else
    result ++ List.replicate (7 - result.length) 0

/-- PortfolioSimulatorGUI.parse_allocation of variants 003, 005 and 006:
same algorithm with a 5-entry default and padding to 5 entries. -/
def parse_allocation (dist : List Char) : List ℤ :=
  let result := (parseEntriesInt dist).getD [30, 20, 10, 20, 20]
  let total := result.sum
  if total ≠ 100 ∧ 0 < total then
    let scaled := result.map fun x => Int.fdiv (x * 100) total
    scaled ++ List.replicate (5 - scaled.length) 0
  else
    result ++ List.replicate (5 - result.length) 0

/-- Decidable equality of Except results, used to evaluate modelled runs on
concrete inputs. -/
instance {ε α : Type _} [DecidableEq ε] [DecidableEq α] : DecidableEq (Except ε α) :=
  fun a b =>
    match a, b with
    | Except.error e, Except.error f => decidable_of_iff (e = f) (by simp)
    | Except.ok x, Except.ok y => decidable_of_iff (x = y) (by simp)
    | Except.error _, Except.ok _ => isFalse (by simp)
    | Except.ok _, Except.error _ => isFalse (by simp)

/-- Python exception kinds raised by the modelled code paths. -/
inductive PyError
  | typeError
  | valueError
  | indexError
  | zeroDivisionError
deriving DecidableEq, Repr

/-- First index of the maximum entry, as Python p.index(max(p)) on a
nonempty list. -/
def argmaxIdx (p : List ℚ) : ℕ := p.indexOf (p.foldl max (p.headD 0))

/-- Map a function with an index over a list, starting at a given index;
models Python's enumerate loops. -/
def idxMap {α β : Type _} (f : ℕ → α → β) : ℕ → List α → List β
  | _, [] => []
  | i, a :: rest => f i a :: idxMap f (i + 1) rest

end BSS

namespace BSS.Sim001

/-- Competitor personalities of variant 001. -/
inductive Personality
  | aggressive
  | defensive
  | deceptive
deriving DecidableEq, Repr

/-- EnhancedCompetitorAI of variant 001 (identical in variant 002): a bounded
memory of (player_win, player_dist) observations plus the last seen
distribution. -/
structure CompetitorAI where
  personality : Personality
  memory_len : ℕ
  memory : List (Bool × List ℚ)
  last_player_distribution : List ℚ
deriving DecidableEq, Repr

/-- EnhancedCompetitorAI.observe_outcome: append the observation and pop the
oldest entry when the bound is exceeded. -/
def observe_outcome (ai : CompetitorAI) (player_win : Bool) (player_dist : List ℚ) :
    CompetitorAI :=
  let mem := ai.memory ++ [(player_win, player_dist)]
  let mem := if ai.memory_len < mem.length then mem.drop 1 else mem
  { ai with memory := mem, last_player_distribution := player_dist }

/-- Mean of the recorded player_win booleans, sum(wins)/n in the source.
The source divides by len(memory); the n = 0 case is unreachable under the
guard of decide_personality whenever memory_len is positive. -/
def winRate (mem : List (Bool × List ℚ)) : ℚ :=
  ((mem.filter fun m => m.1).length : ℚ) / (mem.length : ℚ)

/-- EnhancedCompetitorAI.decide_personality: no-op until the memory is full,
then a 3-way threshold on the mean outcome. -/
def decide_personality (ai : CompetitorAI) : CompetitorAI :=
  if ai.memory.length < ai.memory_len then ai
  else
    let rate := winRate ai.memory
    { ai with
        personality :=
          if 7/10 < rate then Personality.aggressive
          else if rate < 3/10 then Personality.defensive
          else Personality.deceptive }

/-- Behavior flags returned by adjust_behavior. -/
structure Behavior where
  confidence : Bool
  avoid : Bool
  feint : Bool
deriving DecidableEq, Repr

/-- EnhancedCompetitorAI.adjust_behavior: re-decide the personality, then
derive the flags; feintRoll models random.random() < 0.1. -/
def adjust_behavior (ai : CompetitorAI) (feintRoll : Bool) : CompetitorAI × Behavior :=
  let ai' := decide_personality ai
  (ai',
    { confidence := ai'.personality = Personality.aggressive
      avoid := ai'.personality = Personality.defensive
      feint := ai'.personality = Personality.deceptive ∨ feintRoll })

/-- EnhancedCompetitorAI.suggest_competitor_investment.  In the source the
branches for max index 1 and 2 evaluate p + 0.1 and p + 0.2 where p is the
whole distribution list, which raises TypeError in Python; those branches are
therefore modelled as errors.  max of an empty list raises ValueError, and
the 7 subscripts of the max-index-0 branch raise IndexError on short lists. -/
def suggest_competitor_investment (p : List ℚ) : Except PyError (List ℚ) :=
  if p.isEmpty then .error .valueError
  else
    let m := argmaxIdx p
    let weightsE : Except PyError (List ℚ) :=
      if m = 0 then
        match p with
        | p0 :: p1 :: p2 :: p3 :: p4 :: p5 :: p6 :: _ =>
            .ok [p0 * (7/10), p1 + 1/10, p2 + 2/10, p3, p4, p5, p6]
        | _ => .error .indexError
      else if m = 1 ∨ m = 2 then .error .typeError
      else .ok p
    match weightsE with
    | .error e => .error e
    | .ok w =>
        let norm := w.sum
        if norm = 0 then .ok [7/10, 3/20, 1/10, 1/20, 0, 0, 0]
        else .ok (w.map fun x => pyRound2 (x / norm))

/-- Market types of variant 001. -/
inductive Market
  | stable | volatile | regulated | expanding | recessive | emerging | saturated | niche
deriving DecidableEq, Repr

/-- Economic conditions of variant 001. -/
inductive Economy
  | growth | recession | inflation | stagnation | boom | crisis
deriving DecidableEq, Repr

/-- Quarter cycle of variant 001. -/
inductive Quarter
  | q1 | q2 | q3 | q4
deriving DecidableEq, Repr

/-- The quarter_cycle list indexed by (turn - 1) mod 4. -/
def quarterCycle (n : ℕ) : Quarter :=
  match n with
  | 0 => Quarter.q1
  | 1 => Quarter.q2
  | 2 => Quarter.q3
  | _ => Quarter.q4

/-- BusinessUnit of variant 001: budget plus static coefficients and the
special flags that appear in the sources. -/
structure BUnit where
  budget : ℤ
  impact : ℚ
  resilience : ℚ
  agility : ℚ
  brand_boost : Bool := false
  innovation : Bool := false
  patent : Bool := false
  espionage : ℕ := 0
deriving DecidableEq, Repr

/-- The units dict of variant 001, with its fixed keys in insertion order. -/
structure Units where
  sales_team : BUnit
  marketing : BUnit
  rnd : BUnit
  legal : BUnit
  finance : BUnit
  analytics : BUnit
  intelligence : BUnit
deriving DecidableEq, Repr

/-- units.values() in insertion order. -/
def Units.list (u : Units) : List BUnit :=
  [u.sales_team, u.marketing, u.rnd, u.legal, u.finance, u.analytics, u.intelligence]

/-- calculate_total_assets: sum of the budgets. -/
def Units.total (u : Units) : ℤ := (u.list.map BUnit.budget).sum

/-- Apply a function to every unit of the dict. -/
def Units.map (f : BUnit → BUnit) (u : Units) : Units :=
  ⟨f u.sales_team, f u.marketing, f u.rnd, f u.legal, f u.finance, f u.analytics,
    f u.intelligence⟩

/-- BusinessCampaignState of variant 001 together with the mutable fields of
the GUI loop. -/
structure State where
  units : Units
  competitor_units : Units
  leadership_quality : ℚ
  cash : ℤ
  investment_points : ℤ
  brand_strength : ℤ
  stress : ℚ
  liquidity : ℚ
  sentiment : ℚ
  competitor_sentiment : ℚ
  intel_effectiveness : ℚ
  current_market : Market
  current_economy : Economy
  current_quarter : Quarter
  competitor_total : ℤ
  competitor_ai : CompetitorAI
deriving DecidableEq, Repr

/-- Random draws consumed by one turn of variant 001.  Boolean fields model
comparisons random.random() < p (both outcomes are possible since every
probability used is strictly between 0 and 1, or the comparison only happens
in a reachable branch); rational fields model random.uniform draws. -/
structure Rand where
  econ_pick : Economy
  market_roll : Bool
  market_pick : Market
  liq_event_roll : Bool
  liq_stress_penalty : ℚ
  launch_roll : Bool
  sabotage_roll : Bool
  sabotage_damage : ℚ
  misinfo_roll : Bool
  feint_roll : Bool
deriving DecidableEq, Repr

/-- Range constraints the random module guarantees for the uniform draws:
stress penalty from uniform(0.1, 0.2) and liquidity damage from
uniform(0.05, 0.12). -/
def Rand.Valid (r : Rand) : Prop :=
  1/10 ≤ r.liq_stress_penalty ∧ r.liq_stress_penalty ≤ 1/5 ∧
  1/20 ≤ r.sabotage_damage ∧ r.sabotage_damage ≤ 3/25

/-- BusinessSimulatorGUI.environment_effects: Q4 raises stress, inflation
deducts 10 from both marketing budgets with a floor at 0, growth strengthens
liquidity with a cap at 1. -/
def environment_effects (s : State) : State :=
  let s :=
    if s.current_quarter = Quarter.q4 then { s with stress := s.stress + 1/20 } else s
  let s :=
    if s.current_economy = Economy.inflation then
      { s with
          units := { s.units with marketing :=
            { s.units.marketing with budget := max 0 (s.units.marketing.budget - 10) } }
          competitor_units := { s.competitor_units with marketing :=
            { s.competitor_units.marketing with
                budget := max 0 (s.competitor_units.marketing.budget - 10) } } }
    else s
  if s.current_economy = Economy.growth then
    { s with liquidity := min 1 (s.liquidity + 1/10) }
  else s

/-- BusinessSimulatorGUI.liquidity_event: under a random disruption roll and
low liquidity, add a uniform(0.1, 0.2) stress penalty capped at 1. -/
def liquidity_event (r : Rand) (s : State) : State :=
  if r.liq_event_roll ∧ s.liquidity < 3/5 then
    { s with stress := min (s.stress + r.liq_stress_penalty) 1 }
  else s

/-- BusinessSimulatorGUI.modern_business_tactics: sequentially adjust the
local copies of competitor sentiment and competitor assets, then return them
clamped to the range 0 to 1 and floored at 0 respectively. -/
def modern_business_tactics (turn : ℕ) (r : Rand) (csent : ℚ) (cassets passets : ℤ) :
    ℚ × ℤ :=
  let csent := if 7/10 < csent ∧ turn % 3 = 0 then csent - 1/10 else csent
  let csent :=
    if (cassets : ℚ) * (6/5) < (passets : ℚ) ∧ csent < 2/5 then csent + 1/20 else csent
  let cassets :=
    if passets < cassets ∧ turn % 4 = 0 then
      cassets - pyTrunc ((cassets : ℚ) * (1/20))
    else cassets
  let cassets :=
    if passets < cassets ∧ 1/2 < csent ∧ turn % 5 = 0 then
      if r.launch_roll then cassets - pyTrunc ((cassets : ℚ) * (1/10)) else cassets
    else cassets
  (max 0 (min csent 1), max 0 cassets)

/-- BusinessSimulatorGUI.advanced_intel_operations: optional sabotage and
misinformation effects (the rolls against budget-dependent chances are Bool
oracles), then the intel effectiveness update. -/
def advanced_intel_operations (r : Rand) (s : State) : State :=
  let s :=
    if 0 < s.units.intelligence.budget then
      let s :=
        if r.sabotage_roll then
          { s with
              liquidity := max 0 (s.liquidity - r.sabotage_damage)
              competitor_sentiment := max 0 (s.competitor_sentiment - 1/20) }
        else s
      if r.misinfo_roll then
        { s with competitor_sentiment := max 0 (s.competitor_sentiment - 7/100) }
      else s
    else s
  { s with intel_effectiveness := min 1 ((s.units.intelligence.budget : ℚ) / 150) }

/-- Add an amount to a unit budget. -/
def addBudget (u : BUnit) (x : ℤ) : BUnit := { u with budget := u.budget + x }

/-- The brand maintenance tail of resource_management.  brand_strength is 0
throughout variant 001 so the branch is inert, but it is modelled as
written. -/
def brand_maintenance (s : State) : State :=
  if 0 < s.brand_strength then
    if 50 ≤ s.cash then
      { s with cash := s.cash - 50, stress := max 0 (s.stress - 1/20) }
    else { s with stress := s.stress + 1/20 }
  else s

/-- BusinessSimulatorGUI.resource_management: invest
int(invest_gain * dist_i / 100) into each of the seven units when enough cash
is available (cash_spent = int(invest_gain * 5) = invest_gain * 5 exactly
since invest_gain is an integer), then run brand maintenance.  The parser
always supplies at least 7 distribution entries, so the subscript is total. -/
def resource_management (invest_dist : List ℤ) (s : State) : State :=
  let invest_gain := pyTrunc ((s.investment_points : ℚ) * (1/10))
  let cash_spent := invest_gain * 5
  let s :=
    if cash_spent ≤ s.cash ∧ 0 < invest_gain then
      let ib := fun (i : ℕ) =>
        pyTrunc ((invest_gain : ℚ) * ((invest_dist.getD i 0 : ℤ) : ℚ) / 100)
      { s with
          cash := s.cash - cash_spent
          units :=
            { sales_team := addBudget s.units.sales_team (ib 0)
              marketing := addBudget s.units.marketing (ib 1)
              rnd := addBudget s.units.rnd (ib 2)
              legal := addBudget s.units.legal (ib 3)
              finance := addBudget s.units.finance (ib 4)
              analytics := addBudget s.units.analytics (ib 5)
              intelligence := addBudget s.units.intelligence (ib 6) } }
    else s
  brand_maintenance s

/-- BusinessSimulatorGUI.calculate_sentiment: linear formula clamped into the
range 0 to 1. -/
def calculate_sentiment (s : State) : ℚ :=
  let leadership_bonus := (s.leadership_quality - 1/2) * (3/10)
  let intel_bonus := (s.intel_effectiveness - 1/2) * (1/5)
  let economic_penalty : ℚ :=
    if s.current_economy = Economy.recession ∨ s.current_economy = Economy.crisis then
      -(1/10)
    else 0
  max 0 (min (s.sentiment - s.stress * (1/2) + (s.liquidity - 1/2) * (2/5) +
    leadership_bonus + intel_bonus + economic_penalty) 1)

/-- Per-unit score of resolve_market_competition:
impact * budget * (1 - stress * 0.5), multiplied by 1.2 for brand_boost. -/
def unitScore (stress : ℚ) (u : BUnit) : ℚ :=
  let sc := u.impact * (u.budget : ℚ) * (1 - stress * (1/2))
  if u.brand_boost then sc * (6/5) else sc

/-- The market conditions that trigger the efficiency penalty. -/
def marketPenalized (m : Market) : Prop :=
  m = Market.regulated ∨ m = Market.volatile ∨ m = Market.saturated

instance (m : Market) : Decidable (marketPenalized m) := by
  unfold marketPenalized; infer_instance

/-- The penalty subtracted for marketing, rnd and analytics when the market
is regulated, volatile or saturated; those keys are always present in the
fixed units dict. -/
def marketPenalty (us : Units) : ℚ :=
  us.marketing.impact * (us.marketing.budget : ℚ) * (1/5) +
  us.rnd.impact * (us.rnd.budget : ℚ) * (1/5) +
  us.analytics.impact * (us.analytics.budget : ℚ) * (1/5)

/-- BusinessSimulatorGUI.resolve_market_competition. -/
def resolve_market_competition (s : State) : ℤ × ℤ :=
  let player_score := (s.units.list.map (unitScore s.stress)).sum
  let competitor_score := (s.competitor_units.list.map (unitScore s.stress)).sum
  let player_score :=
    if marketPenalized s.current_market then player_score - marketPenalty s.units
    else player_score
  let competitor_score :=
    if marketPenalized s.current_market then
      competitor_score - marketPenalty s.competitor_units
    else competitor_score
  (max 0 (pyTrunc player_score), max 0 (pyTrunc competitor_score))

/-- BusinessSimulatorGUI.apply_losses: proportional integer losses floored at
0 on every unit; no-op when the side is empty or losses are 0. -/
def apply_losses (units : Units) (losses : ℤ) : Units :=
  let total := units.total
  if total = 0 ∨ losses = 0 then units
  else
    let loss_ratio := min 1 ((losses : ℚ) / (total : ℚ))
    units.map fun u =>
      { u with budget := max 0 (u.budget - pyTrunc ((u.budget : ℚ) * loss_ratio)) }

/-- BusinessSimulatorGUI.post_competition_effects: investment points drift
with the loss difference and are floored at 40; high stress costs cash. -/
def post_competition_effects (player_losses competitor_losses : ℤ) (s : State) : State :=
  let sentiment_change : ℚ := ((competitor_losses : ℚ) - (player_losses : ℚ)) / 10000
  let s :=
    { s with
        investment_points :=
          max 40 (s.investment_points + pyTrunc (sentiment_change * 40)) }
  if 4/5 < s.stress then { s with cash := max 0 (s.cash - 100) } else s

/-- BusinessSimulatorGUI.update_competitor_ai: record the outcome and the
normalized player distribution in the competitor AI memory. -/
def update_competitor_ai (player_losses competitor_losses : ℤ) (s : State) : State :=
  let player_win := decide (player_losses < competitor_losses)
  let invest_list := s.units.list.map BUnit.budget
  let total := invest_list.sum
  let player_dist :=
    invest_list.map fun x => if 0 < total then (x : ℚ) / (total : ℚ) else 0
  { s with competitor_ai := observe_outcome s.competitor_ai player_win player_dist }

/-- Per-turn record appended to sim_data (the fields the claims are about). -/
structure Snap where
  quarter : ℕ
  market_share : ℤ
  competitor_share : ℤ
  sentiment : ℚ
  competitor_sentiment : ℚ
  stress : ℚ
  liquidity : ℚ
  cash : ℤ
  investment_points : ℤ
deriving DecidableEq, Repr

/-- Start of the loop body of variant 001: the economy redraw on even turns,
the quarter cycle and the occasional market change. -/
def preamble (turn : ℕ) (r : Rand) (s : State) : State :=
  let s :=
    { s with current_economy := if turn % 2 = 0 then r.econ_pick else s.current_economy }
  let s := { s with current_quarter := quarterCycle ((turn - 1) % 4) }
  if r.market_roll then { s with current_market := r.market_pick } else s

/-- Wire modern_business_tactics into the state: the returned sentiment and
assets land in competitor_sentiment and competitor_total. -/
def tacticsPhase (turn : ℕ) (r : Rand) (s : State) : State :=
  let tb :=
    modern_business_tactics turn r s.competitor_sentiment s.competitor_units.total
      s.units.total
  { s with competitor_sentiment := tb.1, competitor_total := tb.2 }

/-- The win and loss amounts computed from the two behavior-adjusted scores:
the winner's gain is proportional to the score difference, the loser's to
the opposing score. -/
def lossesOf (pscore cscore : ℚ) : ℤ × ℤ :=
  if cscore < pscore then
    (pyTrunc (cscore * (1/25)), pyTrunc ((pscore - cscore) * (2/25)))
  else
    (pyTrunc ((cscore - pscore) * (7/100)), pyTrunc (pscore * (3/100)))

/-- The tail of the market competition segment, given the two computed loss
amounts: apply the losses to both unit dicts, update stress and liquidity,
and run the post-competition and AI updates. -/
def competeCore (player_losses competitor_losses : ℤ) (s : State) : State :=
  let s :=
    { s with
        units := apply_losses s.units player_losses
        competitor_units := apply_losses s.competitor_units competitor_losses }
  let stress_gain := 1/20 + (player_losses : ℚ) / 15000
  let s := { s with stress := min 1 (s.stress + stress_gain) }
  let liquidity_consumption := 9/100 + stress_gain * (1/2)
  let s := { s with liquidity := max 0 (s.liquidity - liquidity_consumption) }
  let s := post_competition_effects player_losses competitor_losses s
  update_competitor_ai player_losses competitor_losses s

/-- The market competition segment of the loop body of variant 001: resolve
the scores, apply the competitor behavior multipliers, derive the losses,
then apply the loss, stress, liquidity, post-competition and AI updates. -/
def compete (r : Rand) (s : State) : State :=
  let scores := resolve_market_competition s
  let ab := adjust_behavior s.competitor_ai r.feint_roll
  let s := { s with competitor_ai := ab.1 }
  let cscore : ℚ := if ab.2.avoid then (scores.2 : ℚ) * (4/5) else (scores.2 : ℚ)
  let pscore : ℚ := if ab.2.feint then (scores.1 : ℚ) * (9/10) else (scores.1 : ℚ)
  competeCore (lossesOf pscore cscore).1 (lossesOf pscore cscore).2 s

/-- The per-turn record of variant 001 built from the end-of-turn state. -/
def mkSnap (turn : ℕ) (s : State) : Snap :=
  { quarter := turn
    market_share := s.units.total
    competitor_share := s.competitor_units.total
    sentiment := s.sentiment
    competitor_sentiment := s.competitor_sentiment
    stress := s.stress
    liquidity := s.liquidity
    cash := s.cash
    investment_points := s.investment_points }

/-- One iteration of the loop body of BusinessSimulatorGUI.run_simulation of
variant 001, in source order. -/
def runTurn (turn : ℕ) (r : Rand) (invest_dist : List ℤ) (s : State) : State × Snap :=
  let s := preamble turn r s
  let s := environment_effects s
  let s := liquidity_event r s
  let s := tacticsPhase turn r s
  let s := advanced_intel_operations r s
  let s := resource_management invest_dist s
  let s := { s with sentiment := calculate_sentiment s }
  let s := compete r s
  (s, mkSnap turn s)

/-- The turn loop of variant 001: run the remaining number of turns starting
at turn index t, stopping early when either side's total assets reach 0 at
the end of a turn. -/
def runGo (rs : ℕ → Rand) (d : List ℤ) : ℕ → ℕ → State → State × List Snap
  | 0, _, s => (s, [])
  | n + 1, t, s =>
      let ts := runTurn t (rs t) d s
      if ts.1.units.total = 0 ∨ ts.1.competitor_units.total = 0 then (ts.1, [ts.2])
      else
        let rest := runGo rs d n (t + 1) ts.1
        (rest.1, ts.2 :: rest.2)

/-- The full simulation loop of variant 001 for a given positive turn count. -/
def runSim (turns : ℕ) (rs : ℕ → Rand) (d : List ℤ) (s : State) : State × List Snap :=
  runGo rs d turns 1 s

/-- BusinessCampaignState.init_state with its default arguments; the market,
economy, quarter and AI personality drawn by random.choice at init time are
parameters. -/
def initState (m : Market) (e : Economy) (q : Quarter) (p : Personality) : State :=
  let units : Units :=
    { sales_team := { budget := 3000, impact := 8, resilience := 6, agility := 7 }
      marketing :=
        { budget := 1500, impact := 10, resilience := 5, agility := 6, brand_boost := true }
      rnd := { budget := 800, impact := 15, resilience := 8, agility := 5, innovation := true }
      legal := { budget := 400, impact := 4, resilience := 13, agility := 3, patent := true }
      finance := { budget := 1000, impact := 6, resilience := 10, agility := 4 }
      analytics := { budget := 300, impact := 5, resilience := 7, agility := 4 }
      intelligence :=
        { budget := 100, impact := 2, resilience := 2, agility := 7, espionage := 9 } }
  let competitor_units : Units :=
    { sales_team := { budget := 2800, impact := 8, resilience := 6, agility := 7 }
      marketing :=
        { budget := 1400, impact := 10, resilience := 5, agility := 6, brand_boost := true }
      rnd := { budget := 700, impact := 15, resilience := 8, agility := 5, innovation := true }
      legal := { budget := 350, impact := 4, resilience := 13, agility := 3, patent := true }
      finance := { budget := 900, impact := 6, resilience := 10, agility := 4 }
      analytics := { budget := 250, impact := 5, resilience := 7, agility := 4 }
      intelligence :=
        { budget := 90, impact := 2, resilience := 2, agility := 7, espionage := 8 } }
  { units := units
    competitor_units := competitor_units
    leadership_quality := 17/20
    cash := 2000
    investment_points := 300
    brand_strength := 0
    stress := 0
    liquidity := 1
    sentiment := 7/10
    competitor_sentiment := 3/5
    intel_effectiveness := 0
    current_market := m
    current_economy := e
    current_quarter := q
    competitor_total := competitor_units.total
    competitor_ai :=
      { personality := p, memory_len := 5, memory := []
        last_player_distribution := [7/10, 3/20, 1/10, 1/20, 0, 0, 0] } }

end BSS.Sim001

namespace BSS.Sim002

/-- BusinessUnit of variant 002: adds talent_level to the static fields. -/
structure BUnit where
  budget : ℤ
  impact : ℚ
  resilience : ℚ
  agility : ℚ
  talent_level : ℚ
  brand_boost : Bool := false
  innovation : Bool := false
  espionage : ℕ := 0
deriving DecidableEq, Repr

/-- BusinessUnit.effective_impact of variant 002: base score plus talent
bonus plus additive brand bonus. -/
def effective_impact (u : BUnit) (stress : ℚ) : ℚ :=
  let base := u.impact * (u.budget : ℚ) * (1 - stress * (1/2))
  let talent_bonus := base * (u.talent_level * (1/5))
  let special_bonus := if u.brand_boost then base * (1/5) else 0
  base + talent_bonus + special_bonus

/-- The units dict of variant 002 with its fixed keys in insertion order. -/
structure Units where
  sales_team : BUnit
  marketing : BUnit
  rnd : BUnit
  legal : BUnit
  finance : BUnit
  analytics : BUnit
  intelligence : BUnit
deriving DecidableEq, Repr

/-- units.values() in insertion order. -/
def Units.list (u : Units) : List BUnit :=
  [u.sales_team, u.marketing, u.rnd, u.legal, u.finance, u.analytics, u.intelligence]

/-- Sum of the budgets. -/
def Units.total (u : Units) : ℤ := (u.list.map BUnit.budget).sum

/-- Apply a function to every unit of the dict. -/
def Units.map (f : BUnit → BUnit) (u : Units) : Units :=
  ⟨f u.sales_team, f u.marketing, f u.rnd, f u.legal, f u.finance, f u.analytics,
    f u.intelligence⟩

/-- A competitor of variant 002; its AI class is identical to variant 001's
EnhancedCompetitorAI. -/
structure Competitor where
  units : Units
  ai : Sim001.CompetitorAI
  sentiment : ℚ
  stress : ℚ
  liquidity : ℚ
deriving DecidableEq, Repr

/-- Competitor.calculate_total_assets. -/
def Competitor.total (c : Competitor) : ℤ := c.units.total

/-- BusinessCampaignState of variant 002 (the player units dict and the GUI's
player_units alias are a single shared dict). -/
structure State where
  units : Units
  leadership_quality : ℚ
  cash : ℤ
  investment_points : ℤ
  brand_strength : ℤ
  sentiment : ℚ
  stress : ℚ
  liquidity : ℚ
  intel_effectiveness : ℚ
  current_market : Sim001.Market
  current_economy : Sim001.Economy
  current_quarter : Sim001.Quarter
  competitors : List Competitor
deriving DecidableEq, Repr

/-- The three external events of variant 002. -/
inductive EventPick
  | tech
  | crash
  | regulatory
deriving DecidableEq, Repr

/-- BusinessCampaignState.trigger_external_event applied to a chosen event. -/
def trigger_external_event (e : EventPick) (s : State) : State :=
  match e with
  | EventPick.tech =>
      { s with units :=
          { s.units with rnd := { s.units.rnd with impact := s.units.rnd.impact * (13/10) } } }
  | EventPick.crash =>
      { s with liquidity := max 0 (s.liquidity - 3/10), stress := min 1 (s.stress + 1/5) }
  | EventPick.regulatory =>
      { s with units :=
          { s.units with legal := { s.units.legal with budget := s.units.legal.budget + 100 } } }

/-- Random draws consumed by one turn of variant 002. -/
structure Rand where
  event_roll : Bool
  event_pick : EventPick
  econ_pick : Sim001.Economy
  market_roll : Bool
  market_pick : Sim001.Market
  feint_rolls : ℕ → Bool
  usent : ℚ
  ustress : ℚ
  uliq : ℚ

/-- Ranges of the uniform draws of the sentiment, stress and liquidity
updates. -/
def Rand.Valid (r : Rand) : Prop :=
  -(1/100) ≤ r.usent ∧ r.usent ≤ 1/50 ∧
  -(1/100) ≤ r.ustress ∧ r.ustress ≤ 1/100 ∧
  -(1/100) ≤ r.uliq ∧ r.uliq ≤ 1/100

/-- Per-turn record appended to sim_data by variant 002 (the fields the
claims are about). -/
structure Snap where
  quarter : ℕ
  player_market_share : ℤ
  competitor_market_share : ℤ
  player_sentiment : ℚ
  competitor_sentiment : ℚ
  stress : ℚ
  liquidity : ℚ
  investment_points : ℤ
  brand_strength : ℤ
deriving DecidableEq, Repr

/-- One iteration of the loop body of BusinessSimulatorGUI.run_simulation of
variant 002, in source order: optional external event, environment updates,
player investment, competitor AI updates, score comparison with proportional
budget updates, clamped sentiment, stress and liquidity drifts and the turn
record.  The loop has no early-stop condition. -/
def runTurn (quarter : ℕ) (r : Rand) (invest_dist : List ℤ) (s : State) : State × Snap :=
  let s := if r.event_roll then trigger_external_event r.event_pick s else s
  let s :=
    { s with current_economy := if quarter % 2 = 0 then r.econ_pick else s.current_economy }
  let s := { s with current_quarter := Sim001.quarterCycle ((quarter - 1) % 4) }
  let s := if r.market_roll then { s with current_market := r.market_pick } else s
  let investment_gain := pyTrunc ((s.investment_points : ℚ) * (1/10))
  let cash_spent := investment_gain * 5
  let s :=
    if cash_spent ≤ s.cash ∧ 0 < investment_gain then
      let ib := fun (i : ℕ) =>
        pyTrunc ((investment_gain : ℚ) * ((invest_dist.getD i 0 : ℤ) : ℚ) / 100)
      { s with
          cash := s.cash - cash_spent
          units :=
            { sales_team := { s.units.sales_team with budget := s.units.sales_team.budget + ib 0 }
              marketing := { s.units.marketing with budget := s.units.marketing.budget + ib 1 }
              rnd := { s.units.rnd with budget := s.units.rnd.budget + ib 2 }
              legal := { s.units.legal with budget := s.units.legal.budget + ib 3 }
              finance := { s.units.finance with budget := s.units.finance.budget + ib 4 }
              analytics := { s.units.analytics with budget := s.units.analytics.budget + ib 5 }
              intelligence :=
                { s.units.intelligence with budget := s.units.intelligence.budget + ib 6 } } }
    else s
  let s :=
    { s with competitors :=
        idxMap (fun i (c : Competitor) =>
          { c with ai := (Sim001.adjust_behavior c.ai (r.feint_rolls i)).1 }) 0 s.competitors }
  let player_score := (s.units.list.map fun u => effective_impact u s.stress).sum
  let competitors_score : ℚ := ((s.competitors.map Competitor.total).sum : ℤ)
  let nComp : ℤ := s.competitors.length
  let s :=
    if competitors_score < player_score then
      let lost := pyTrunc (competitors_score * (3/100))
      let comp_units_loss := Int.fdiv lost nComp
      { s with
          competitors :=
            s.competitors.map fun (c : Competitor) =>
              { c with units := c.units.map fun u =>
                  { u with budget := max 0 (u.budget - comp_units_loss) } }
          units := s.units.map fun u => { u with budget := max 0 (u.budget - lost) } }
    else
      let lost := pyTrunc ((competitors_score - player_score) * (3/50))
      let gained := pyTrunc (player_score * (1/50))
      let comp_units_gain := Int.fdiv gained nComp
      { s with
          units := s.units.map fun u => { u with budget := max 0 (u.budget - lost) }
          competitors :=
            s.competitors.map fun (c : Competitor) =>
              { c with units := c.units.map fun u =>
                  { u with budget := u.budget + comp_units_gain } } }
  let s := { s with sentiment := clamp01 (s.sentiment - 1/50 + r.usent) }
  let s := { s with stress := clamp01 (s.stress + 3/100 + r.ustress) }
  let s := { s with liquidity := clamp01 (s.liquidity - 1/100 + r.uliq) }
  (s,
    { quarter := quarter
      player_market_share := s.units.total
      competitor_market_share := (s.competitors.map Competitor.total).sum
      player_sentiment := s.sentiment
      competitor_sentiment :=
        (s.competitors.map Competitor.sentiment).sum / (s.competitors.length : ℚ)
      stress := s.stress
      liquidity := s.liquidity
      investment_points := s.investment_points
      brand_strength := s.brand_strength })

/-- The turn loop of variant 002: exactly the requested number of turns, with
no early termination. -/
def runGo (rs : ℕ → Rand) (d : List ℤ) : ℕ → ℕ → State → State × List Snap
  | 0, _, s => (s, [])
  | n + 1, t, s =>
      let ts := runTurn t (rs t) d s
      let rest := runGo rs d n (t + 1) ts.1
      (rest.1, ts.2 :: rest.2)

/-- The full simulation loop of variant 002. -/
def runSim (turns : ℕ) (rs : ℕ → Rand) (d : List ℤ) (s : State) : State × List Snap :=
  runGo rs d turns 1 s

/-- The default unit configuration of BusinessCampaignState.load_unit_config
of variant 002. -/
def defaultUnits : Units :=
  { sales_team :=
      { budget := 3000, impact := 8, resilience := 6, agility := 7, talent_level := 3/5
        brand_boost := true }
    marketing := { budget := 1500, impact := 10, resilience := 5, agility := 6, talent_level := 1/2 }
    rnd :=
      { budget := 800, impact := 15, resilience := 8, agility := 5, talent_level := 7/10
        innovation := true }
    legal := { budget := 400, impact := 4, resilience := 13, agility := 3, talent_level := 2/5 }
    finance := { budget := 1000, impact := 6, resilience := 10, agility := 4, talent_level := 1/2 }
    analytics := { budget := 300, impact := 5, resilience := 7, agility := 4, talent_level := 1/2 }
    intelligence :=
      { budget := 100, impact := 2, resilience := 2, agility := 7, talent_level := 3/5
        espionage := 9 } }

/-- Fresh Competitor as constructed by variant 002: sentiment 0.6, stress
0.3, liquidity 0.9 and the given personality; the unit dict comes from
load_unit_config(custom=True), which returns the file contents of
unit_config.json when present and the default configuration otherwise, so it
is a parameter. -/
def mkCompetitor (us : Units) (p : Sim001.Personality) : Competitor :=
  { units := us
    ai := { personality := p, memory_len := 5, memory := [], last_player_distribution := [] }
    sentiment := 3/5
    stress := 3/10
    liquidity := 9/10 }

/-- BusinessCampaignState of variant 002 at construction time; the initial
market, economy and quarter draws and the two competitor unit configurations
are parameters. -/
def initState (m : Sim001.Market) (e : Sim001.Economy) (q : Sim001.Quarter)
    (compA compB : Units) : State :=
  { units := defaultUnits
    leadership_quality := 17/20
    cash := 2000
    investment_points := 300
    brand_strength := 0
    sentiment := 7/10
    stress := 0
    liquidity := 1
    intel_effectiveness := 0
    current_market := m
    current_economy := e
    current_quarter := q
    competitors :=
      [mkCompetitor compA Sim001.Personality.aggressive,
       mkCompetitor compB Sim001.Personality.defensive] }

end BSS.Sim002

namespace BSS.Sim003

/-- Tickers of the simulated price table of get_stock_price; `other` stands
for any ticker outside the table. -/
inductive Ticker
  | AAPL | GOOG | TSLA | MSFT | SPY | other
deriving DecidableEq, Repr

/-- Lower bound of the uniform range of the simulated price of a ticker. -/
def priceLo : Ticker → ℚ
  | Ticker.AAPL => 140
  | Ticker.GOOG => 2500
  | Ticker.TSLA => 700
  | Ticker.MSFT => 280
  | Ticker.SPY => 400
  | Ticker.other => 100

/-- Upper bound of the uniform range of the simulated price of a ticker. -/
def priceHi : Ticker → ℚ
  | Ticker.AAPL => 170
  | Ticker.GOOG => 3000
  | Ticker.TSLA => 900
  | Ticker.MSFT => 350
  | Ticker.SPY => 450
  | Ticker.other => 1000

/-- AssetType of variant 003: mutable quantity plus static coefficients.
Every read of the price property calls get_stock_price and hence draws a
fresh simulated price, so prices live in the turn oracle, not here. -/
structure AssetType where
  ticker : Ticker
  quantity : ℤ
  volatility : ℚ
  liquidity : ℚ
deriving DecidableEq, Repr

/-- Market moods of the SunTzuMarketAI of variants 003, 005 and 006. -/
inductive MarketMood
  | bullish | bearish | sideways
deriving DecidableEq, Repr

/-- SunTzuMarketAI of variant 003 (identical in variant 005). -/
structure MarketAI where
  personality : MarketMood
  memory_len : ℕ
  memory : List (Bool × List ℚ)
  last_allocation : List ℚ
deriving DecidableEq, Repr

/-- SunTzuMarketAI.observe_outcome: append and bound the memory. -/
def observe_outcome (ai : MarketAI) (beat_market : Bool) (portfolio_dist : List ℚ) :
    MarketAI :=
  let mem := ai.memory ++ [(beat_market, portfolio_dist)]
  let mem := if ai.memory_len < mem.length then mem.drop 1 else mem
  { ai with memory := mem, last_allocation := portfolio_dist }

/-- Mean of the recorded beat_market booleans. -/
def winRate (mem : List (Bool × List ℚ)) : ℚ :=
  ((mem.filter fun m => m.1).length : ℚ) / (mem.length : ℚ)

/-- SunTzuMarketAI.decide_personality: no-op until the memory is full, then
the 3-way threshold on the mean outcome. -/
def decide_personality (ai : MarketAI) : MarketAI :=
  if ai.memory.length < ai.memory_len then ai
  else
    let rate := winRate ai.memory
    { ai with
        personality :=
          if 7/10 < rate then MarketMood.bullish
          else if rate < 3/10 then MarketMood.bearish
          else MarketMood.sideways }

/-- SunTzuMarketAI.suggest_market_shift.  The branches for max index 0 and 1
evaluate p * 0.7 and p + 0.1 where p is the whole allocation list, which
raises TypeError in Python, so they are modelled as errors; max of an empty
list raises ValueError. -/
def suggest_market_shift (p : List ℚ) : Except PyError (List ℚ) :=
  if p.isEmpty then .error .valueError
  else
    let m := argmaxIdx p
    if m = 0 ∨ m = 1 then .error .typeError
    else
      let w := p
      let norm := w.sum
      if norm = 0 then .ok [1/2, 1/5, 1/10, 1/10, 1/10]
      else .ok (w.map fun x => pyRound2 (x / norm))

/-- The reaction flags returned by adjust_market_conditions. -/
structure MarketReact where
  volatile : Bool
  strong_drop : Bool
  surprise_rally : Bool
deriving DecidableEq, Repr

/-- SunTzuMarketAI.adjust_market_conditions of variant 003: re-decide the
personality, then derive the flags; rallyRoll models random.random() < 0.15,
only reached when the personality is bullish. -/
def adjust_market_conditions (ai : MarketAI) (rallyRoll : Bool) : MarketAI × MarketReact :=
  let ai' := decide_personality ai
  (ai',
    { volatile := ai'.personality = MarketMood.sideways
      strong_drop := ai'.personality = MarketMood.bearish
      surprise_rally := ai'.personality = MarketMood.bullish ∧ rallyRoll })

/-- PortfolioState of variant 003; the market_cond dict is flattened into the
fear_index, liquidity and volatility fields. -/
structure PState where
  assets : List AssetType
  cash : ℚ
  market_ai : MarketAI
  risk_aversion : ℚ
  fear_index : ℚ
  liquidity : ℚ
  volatility : ℚ
deriving DecidableEq, Repr

/-- Random draws consumed by one turn of variant 003.  Each read of an asset
price property is an independent get_stock_price draw; price ph i is the
draw for the i-th asset at access site ph of the turn (0 value-before, 1
market index start, 2 trade total, 3 trade guard, 4 trade divisor, 5 trade
cost or revenue, 6 new value, 7 market index end, 8 allocation total, 9
allocation numerator, 12 the loop's wipe-out check; further draws consumed
by logging affect nothing and are not modelled). -/
structure Rand where
  dfear : ℚ
  dliq : ℚ
  dvol : ℚ
  intelRoll : Bool
  rallyRoll : Bool
  dropHit : ℕ → Bool
  dropVal : ℕ → ℚ
  rallyHit : ℕ → Bool
  rallyVal : ℕ → ℚ
  price : ℕ → ℕ → ℚ

/-- Ticker requested by a given price access site. -/
def accessTicker (tickers : List Ticker) (ph i : ℕ) : Option Ticker :=
  if ph = 1 ∨ ph = 7 then some Ticker.SPY else tickers.get? i

/-- Range constraints the random module guarantees for the draws of one
turn, relative to the (fixed) ticker list of the portfolio. -/
def Rand.Valid (tickers : List Ticker) (r : Rand) : Prop :=
  -(1/10) ≤ r.dfear ∧ r.dfear ≤ 1/10 ∧
  -(1/20) ≤ r.dliq ∧ r.dliq ≤ 1/20 ∧
  -(7/100) ≤ r.dvol ∧ r.dvol ≤ 7/100 ∧
  (∀ i, 1/20 ≤ r.dropVal i ∧ r.dropVal i ≤ 3/20) ∧
  (∀ i, 1/25 ≤ r.rallyVal i ∧ r.rallyVal i ≤ 9/100) ∧
  (∀ ph i t, accessTicker tickers ph i = some t →
    priceLo t ≤ r.price ph i ∧ r.price ph i ≤ priceHi t)

/-- PortfolioState.total_value with the prices drawn at one access site:
cash plus the sum of quantity times price over the assets. -/
def totalValue (pr : ℕ → ℚ) (assets : List AssetType) (cash : ℚ) : ℚ :=
  cash + (idxMap (fun i a => (a.quantity : ℚ) * pr i) 0 assets).sum

/-- PortfolioState.update_market_conditions: clamped drifts of the three
market condition scalars. -/
def update_market_conditions (r : Rand) (s : PState) : PState :=
  { s with
      fear_index := min 1 (max 0 (s.fear_index + r.dfear))
      liquidity := min 1 (max 0 (s.liquidity + r.dliq))
      volatility := min 1 (max 0 (s.volatility + r.dvol)) }

/-- PortfolioState.asset_allocation: divide each asset value by the total
value; None models the ZeroDivisionError raised when the total is 0 and the
asset list is nonempty (an empty list performs no division). -/
def asset_allocation (pr8 pr9 : ℕ → ℚ) (assets : List AssetType) (cash : ℚ) :
    Option (List ℚ) :=
  let tv := totalValue pr8 assets cash
  if assets.isEmpty then some []
  else if tv = 0 then none
  else some (idxMap (fun i a => (a.quantity : ℚ) * pr9 i / tv) 0 assets)

/-- One asset's rebalancing trade: compute the target quantity from the
target value (two fresh price draws: the positivity guard and the divisor),
buy when affordable, sell otherwise; quantities change by the truncated
difference. -/
def tradeStep (ap : List ℚ) (tv : ℚ) (r : Rand) (i : ℕ) (a : AssetType) (cash : ℚ) :
    Except PyError (AssetType × ℚ) :=
  let target_value := tv * ap.getD i 0
  let qty_targetE : Except PyError ℚ :=
    if 0 < r.price 3 i then
      if r.price 4 i = 0 then Except.error PyError.zeroDivisionError
      else Except.ok (target_value / r.price 4 i)
    else Except.ok 0
  match qty_targetE with
  | Except.error e => Except.error e
  | Except.ok qty_target =>
      let diff_qty := pyTrunc (qty_target - (a.quantity : ℚ))
      if 0 < diff_qty then
        let cost := (diff_qty : ℚ) * r.price 5 i
        if cost ≤ cash then
          Except.ok ({ a with quantity := a.quantity + diff_qty }, cash - cost)
        else Except.ok (a, cash)
      else if diff_qty < 0 then
        let revenue := (-(diff_qty : ℚ)) * r.price 5 i
        Except.ok ({ a with quantity := a.quantity + diff_qty }, cash + revenue)
      else Except.ok (a, cash)

/-- The rebalancing loop over the assets, threading the cash. -/
def tradesGo (ap : List ℚ) (tv : ℚ) (r : Rand) :
    ℕ → List AssetType → ℚ → Except PyError (List AssetType × ℚ)
  | _, [], cash => Except.ok ([], cash)
  | i, a :: rest, cash =>
      match tradeStep ap tv r i a cash with
      | Except.error e => Except.error e
      | Except.ok (a', cash') =>
          match tradesGo ap tv r (i + 1) rest cash' with
          | Except.error e => Except.error e
          | Except.ok (rest', cash'') => Except.ok (a' :: rest', cash'')

/-- The strong-drop effect: most assets lose a uniform(0.05, 0.15) fraction,
truncated and floored at 0. -/
def applyDrop (r : Rand) (assets : List AssetType) : List AssetType :=
  idxMap (fun i a =>
    if r.dropHit i then
      { a with quantity := max 0 (pyTrunc ((a.quantity : ℚ) * (1 - r.dropVal i))) }
    else a) 0 assets

/-- The surprise-rally effect: most assets gain a uniform(0.04, 0.09)
fraction, truncated. -/
def applyRally (r : Rand) (assets : List AssetType) : List AssetType :=
  idxMap (fun i a =>
    if r.rallyHit i then
      { a with quantity := pyTrunc ((a.quantity : ℚ) * (1 + r.rallyVal i)) }
    else a) 0 assets

/-- Per-turn record appended to sim_data by variant 003. -/
structure Snap where
  turn : ℕ
  portfolio_value : ℚ
  cash : ℚ
  market_fear : ℚ
  market_liquidity : ℚ
  market_volatility : ℚ
  ai_personality : MarketMood
  beat_market : Bool
deriving DecidableEq, Repr

/-- PortfolioSimulatorGUI.portfolio_turn of variant 003, in source order:
market condition drift, tactic logging (no state change), rebalancing
trades, the market AI reaction with drop and rally effects, performance
measurement against the index, the allocation computation recorded by the
AI (which can raise ZeroDivisionError), and the turn record. -/
def portfolio_turn (turn : ℕ) (r : Rand) (alloc_dist : List ℤ) (s : PState) :
    Except PyError (PState × Snap) :=
  let s := update_market_conditions r s
  let alloc_perc := alloc_dist.map fun x : ℤ => (x : ℚ) / 100
  let pvb := totalValue (r.price 0) s.assets s.cash
  let mis := r.price 1 0
  let tv := totalValue (r.price 2) s.assets s.cash
  match tradesGo alloc_perc tv r 0 s.assets s.cash with
  | Except.error e => Except.error e
  | Except.ok (assets', cash') =>
      let s := { s with assets := assets', cash := cash' }
      let ar := adjust_market_conditions s.market_ai r.rallyRoll
      let s := { s with market_ai := ar.1 }
      let s := if ar.2.strong_drop then { s with assets := applyDrop r s.assets } else s
      let s := if ar.2.surprise_rally then { s with assets := applyRally r s.assets } else s
      let new_value := totalValue (r.price 6) s.assets s.cash
      let mie := r.price 7 0
      let beat := decide (mie - mis < new_value - pvb)
      match asset_allocation (r.price 8) (r.price 9) s.assets s.cash with
      | none => Except.error PyError.zeroDivisionError
      | some alloc =>
          let s := { s with market_ai := observe_outcome s.market_ai beat alloc }
          let s := { s with market_ai := decide_personality s.market_ai }
          Except.ok (s,
            { turn := turn
              portfolio_value := new_value
              cash := s.cash
              market_fear := s.fear_index
              market_liquidity := s.liquidity
              market_volatility := s.volatility
              ai_personality := s.market_ai.personality
              beat_market := beat })

/-- The turn loop of variant 003: up to the requested number of turns,
stopping early when the freshly priced total value is not positive; an
exception in a turn aborts the run. -/
def runGo (rs : ℕ → Rand) (d : List ℤ) :
    ℕ → ℕ → PState → Except PyError (PState × List Snap)
  | 0, _, s => Except.ok (s, [])
  | n + 1, t, s =>
      match portfolio_turn t (rs t) d s with
      | Except.error e => Except.error e
      | Except.ok (s', snap) =>
          if totalValue ((rs t).price 12) s'.assets s'.cash ≤ 0 then Except.ok (s', [snap])
          else
            match runGo rs d n (t + 1) s' with
            | Except.error e => Except.error e
            | Except.ok (s'', snaps) => Except.ok (s'', snap :: snaps)

/-- The full simulation loop of variant 003. -/
def runSim (turns : ℕ) (rs : ℕ → Rand) (d : List ℤ) (s : PState) :
    Except PyError (PState × List Snap) :=
  runGo rs d turns 1 s

/-- PortfolioState.init_portfolio with the default stocks; the initial AI
personality and the three uniform market condition draws are parameters. -/
def initPortfolio (mood : MarketMood) (fear0 liq0 vol0 : ℚ) : PState :=
  { assets :=
      [{ ticker := Ticker.AAPL, quantity := 20, volatility := 9/50, liquidity := 19/20 },
       { ticker := Ticker.GOOG, quantity := 3, volatility := 11/50, liquidity := 97/100 },
       { ticker := Ticker.TSLA, quantity := 8, volatility := 7/20, liquidity := 9/10 },
       { ticker := Ticker.MSFT, quantity := 10, volatility := 3/25, liquidity := 49/50 },
       { ticker := Ticker.SPY, quantity := 10, volatility := 9/100, liquidity := 1 }]
    cash := 10000
    market_ai :=
      { personality := mood, memory_len := 5, memory := []
        last_allocation := [1/2, 1/5, 1/10, 1/10, 1/10] }
    risk_aversion := 7/10
    fear_index := fear0
    liquidity := liq0
    volatility := vol0 }

end BSS.Sim003

namespace BSS.Sim005

/-- Random and external inputs consumed by one turn of variant 005.  The
numeric turn logic of variant 005 (portfolio_turn, the trades, the drop and
rally effects, asset_allocation and the loop) is line-for-line the logic of
variant 003; the difference is get_stock_price, which first queries the live
yfinance feed and only falls back to the local pseudo-random price table on
failure.  feed ph i is the feed's response at a price access site (None
models a fetch failure) and fallback ph i the pseudo-random fallback draw;
the remaining fields are the PRNG draws as in Sim003.Rand.  (Variant 005's
AssetType also carries buy_date and buy_value, never read by the turn loop,
and its strategy recommendations only log text; both are omitted.) -/
structure Rand where
  dfear : ℚ
  dliq : ℚ
  dvol : ℚ
  rallyRoll : Bool
  dropHit : ℕ → Bool
  dropVal : ℕ → ℚ
  rallyHit : ℕ → Bool
  rallyVal : ℕ → ℚ
  feed : ℕ → ℕ → Option ℚ
  fallback : ℕ → ℕ → ℚ

/-- get_stock_price of variant 005 at an access site: the live feed price
when the fetch succeeds, the pseudo-random fallback otherwise. -/
def priceAt (r : Rand) (ph i : ℕ) : ℚ :=
  match r.feed ph i with
  | some p => p
  | none => r.fallback ph i

/-- Package the turn inputs as a Sim003 oracle: identical PRNG fields and
the feed-or-fallback price function (intelRoll is a draw of variant 003's
tactics logging with no counterpart in variant 005 and no effect on any
definition). -/
def toOracle (r : Rand) : Sim003.Rand :=
  { dfear := r.dfear
    dliq := r.dliq
    dvol := r.dvol
    intelRoll := false
    rallyRoll := r.rallyRoll
    dropHit := r.dropHit
    dropVal := r.dropVal
    rallyHit := r.rallyHit
    rallyVal := r.rallyVal
    price := priceAt r }

/-- PortfolioSimulatorGUI.portfolio_turn of variant 005. -/
def portfolio_turn (turn : ℕ) (r : Rand) (alloc_dist : List ℤ) (s : Sim003.PState) :
    Except PyError (Sim003.PState × Sim003.Snap) :=
  Sim003.portfolio_turn turn (toOracle r) alloc_dist s

/-- The full simulation loop of variant 005: up to the requested number of
turns with the same early wipe-out stop as variant 003. -/
def runSim (turns : ℕ) (rs : ℕ → Rand) (d : List ℤ) (s : Sim003.PState) :
    Except PyError (Sim003.PState × List Sim003.Snap) :=
  Sim003.runSim turns (fun n => toOracle (rs n)) d s

/-- PortfolioState.init_portfolio of variant 005 with its default stocks:
the same five holdings, every asset with volatility 0.2 and liquidity 0.9. -/
def initPortfolio (mood : Sim003.MarketMood) (fear0 liq0 vol0 : ℚ) : Sim003.PState :=
  { assets :=
      [{ ticker := Sim003.Ticker.AAPL, quantity := 20, volatility := 1/5, liquidity := 9/10 },
       { ticker := Sim003.Ticker.GOOG, quantity := 3, volatility := 1/5, liquidity := 9/10 },
       { ticker := Sim003.Ticker.TSLA, quantity := 8, volatility := 1/5, liquidity := 9/10 },
       { ticker := Sim003.Ticker.MSFT, quantity := 10, volatility := 1/5, liquidity := 9/10 },
       { ticker := Sim003.Ticker.SPY, quantity := 10, volatility := 1/5, liquidity := 9/10 }]
    cash := 10000
    market_ai :=
      { personality := mood, memory_len := 5, memory := []
        last_allocation := [1/2, 1/5, 1/10, 1/10, 1/10] }
    risk_aversion := 7/10
    fear_index := fear0
    liquidity := liq0
    volatility := vol0 }

end BSS.Sim005

namespace BSS.Sim006

/-- SunTzuChessMarketAI of variant 006, restricted to the fields read or
written by decide_personality; each memory entry records beat_market,
portfolio_dist, risk_tension and control_central; the phase, tension profile
and turn count fields are untouched by decide_personality and omitted. -/
structure ChessMarketAI where
  personality : Sim003.MarketMood
  memory_len : ℕ
  memory : List (Bool × List ℚ × ℚ × ℚ)
  last_allocation : List ℚ
deriving DecidableEq, Repr

/-- Mean of the recorded beat_market booleans. -/
def winRate (mem : List (Bool × List ℚ × ℚ × ℚ)) : ℚ :=
  ((mem.filter fun m => m.1).length : ℚ) / (mem.length : ℚ)

/-- SunTzuChessMarketAI.decide_personality: no-op until the memory (default
bound 7) is full, then the same 3-way threshold on the mean outcome. -/
def decide_personality (ai : ChessMarketAI) : ChessMarketAI :=
  if ai.memory.length < ai.memory_len then ai
  else
    let rate := winRate ai.memory
    { ai with
        personality :=
          if 7/10 < rate then Sim003.MarketMood.bullish
          else if rate < 3/10 then Sim003.MarketMood.bearish
          else Sim003.MarketMood.sideways }

end BSS.Sim006

namespace BSS.Sim001

/-- All seven budgets of a unit dict are nonnegative. -/
def UnitsNN (us : Units) : Prop :=
  0 ≤ us.sales_team.budget ∧ 0 ≤ us.marketing.budget ∧ 0 ≤ us.rnd.budget ∧
  0 ≤ us.legal.budget ∧ 0 ≤ us.finance.budget ∧ 0 ≤ us.analytics.budget ∧
  0 ≤ us.intelligence.budget

/-- The scalar facts carried across turns of variant 001: stress never drops
below 0 and liquidity stays in the range 0 to 1 (stress may exceed 1
transiently inside a turn; the end-of-turn update clamps it). -/
def ScalarInv (s : State) : Prop :=
  0 ≤ s.stress ∧ 0 ≤ s.liquidity ∧ s.liquidity ≤ 1

/-- The budget facts carried across turns of variant 001: all budgets,
investment points and cash are nonnegative. -/
def BudgetInv (s : State) : Prop :=
  UnitsNN s.units ∧ UnitsNN s.competitor_units ∧ 0 ≤ s.investment_points ∧ 0 ≤ s.cash

end BSS.Sim001

namespace BSS.Sim003

/-- All asset quantities are nonnegative. -/
def assetsNN (assets : List AssetType) : Prop := ∀ a ∈ assets, 0 ≤ a.quantity

end BSS.Sim003

namespace BSS.Spec

/-- The 3-way personality threshold in the words of the specification: mean
above 0.7 is aggressive, mean below 0.3 defensive, anything else deceptive. -/
def personalityOfMean (rate : ℚ) : Sim001.Personality :=
  if 7/10 < rate then Sim001.Personality.aggressive
  else if rate < 3/10 then Sim001.Personality.defensive
  else Sim001.Personality.deceptive

/-- The same threshold with the bullish, bearish and sideways labels of the
portfolio variants. -/
def moodOfMean (rate : ℚ) : Sim003.MarketMood :=
  if 7/10 < rate then Sim003.MarketMood.bullish
  else if rate < 3/10 then Sim003.MarketMood.bearish
  else Sim003.MarketMood.sideways

/-- The per-entity score in the words of the claim: impact times budget times
(1 minus stress times 0.5), multiplied by the 1.2 brand-boost bonus. -/
def claimUnitScore (stress : ℚ) (u : Sim001.BUnit) : ℚ :=
  u.impact * (u.budget : ℚ) * (1 - stress * (1/2)) * (if u.brand_boost then 6/5 else 1)

/-- One side's score in the words of the claim: the sum of the per-entity
scores minus the market penalty of 0.2 times impact times budget for the
marketing, rnd and analytics units when the market is regulated, volatile or
saturated. -/
def claimSideScore (stress : ℚ) (m : Sim001.Market) (us : Sim001.Units) : ℚ :=
  (us.list.map (claimUnitScore stress)).sum -
    (if Sim001.marketPenalized m then
      (1/5) * (us.marketing.impact * (us.marketing.budget : ℚ)) +
      (1/5) * (us.rnd.impact * (us.rnd.budget : ℚ)) +
      (1/5) * (us.analytics.impact * (us.analytics.budget : ℚ))
    else 0)

/-- The claim's score formula transcribed onto the unit records of variant
002 (which the claim also cites), used to compare against what variant 002
actually computes. -/
def claimSideScore002 (stress : ℚ) (m : Sim001.Market) (us : Sim002.Units) : ℚ :=
  (us.list.map fun u =>
    u.impact * (u.budget : ℚ) * (1 - stress * (1/2)) * (if u.brand_boost then 6/5 else 1)).sum -
    (if Sim001.marketPenalized m then
      (1/5) * (us.marketing.impact * (us.marketing.budget : ℚ)) +
      (1/5) * (us.rnd.impact * (us.rnd.budget : ℚ)) +
      (1/5) * (us.analytics.impact * (us.analytics.budget : ℚ))
    else 0)

end BSS.Spec

namespace BSS.Inputs

/-- A valid turn oracle for variant 001 used to instantiate universally
quantified theorems: no optional event fires and the uniform draws sit in
their ranges. -/
def c1Rand : Sim001.Rand :=
  { econ_pick := Sim001.Economy.growth
    market_roll := false
    market_pick := Sim001.Market.stable
    liq_event_roll := false
    liq_stress_penalty := 3/20
    launch_roll := false
    sabotage_roll := false
    sabotage_damage := 1/10
    misinfo_roll := false
    feint_roll := false }

/-- The default initial state of variant 001 at a concrete draw of the
init-time random choices. -/
def c1State : Sim001.State :=
  Sim001.initState Sim001.Market.stable Sim001.Economy.growth Sim001.Quarter.q1
    Sim001.Personality.deceptive

/-- Turn oracle of variant 003 for the negative-allocation run: no optional
event fires, all market-condition drifts are 0 and every price draw sits in
its ticker's simulated range (prices indexed by asset; the market index
accesses see the SPY draw 410). -/
def c3Rand : Sim003.Rand :=
  { dfear := 0, dliq := 0, dvol := 0
    intelRoll := false
    rallyRoll := false
    dropHit := fun _ => false
    dropVal := fun _ => 1/10
    rallyHit := fun _ => false
    rallyVal := fun _ => 1/20
    price := fun ph i =>
      if ph = 1 ∨ ph = 7 then 410 else [(150 : ℚ), 2600, 800, 300, 410].getD i 100 }

/-- The default initial portfolio of variant 003 at concrete init draws. -/
def c3State : Sim003.PState :=
  Sim003.initPortfolio Sim003.MarketMood.sideways (1/2) (3/4) (1/4)

/-- The default initial state of variant 002 with both competitors on the
default unit configuration (no unit_config.json present). -/
def c4State : Sim002.State :=
  Sim002.initState Sim001.Market.stable Sim001.Economy.growth Sim001.Quarter.q1
    Sim002.defaultUnits Sim002.defaultUnits

/-- A competitor unit configuration as loaded from a unit_config.json that
gives every competitor unit a budget of 10 million (all other fields at the
loader's defaults: impact 5, resilience 5, agility 5, talent 0.5, no
specials). -/
def c5Huge : Sim002.Units :=
  let u : Sim002.BUnit :=
    { budget := 10000000, impact := 5, resilience := 5, agility := 5, talent_level := 1/2 }
  ⟨u, u, u, u, u, u, u⟩

/-- Variant 002's initial state when unit_config.json holds the 10-million
budget configuration. -/
def c5State : Sim002.State :=
  Sim002.initState Sim001.Market.stable Sim001.Economy.growth Sim001.Quarter.q1
    c5Huge c5Huge

/-- A turn oracle for variant 002 where no optional event fires and the
three uniform drift draws are 0. -/
def c5Rand : Sim002.Rand :=
  { event_roll := false
    event_pick := Sim002.EventPick.tech
    econ_pick := Sim001.Economy.growth
    market_roll := false
    market_pick := Sim001.Market.stable
    feint_rolls := fun _ => false
    usent := 0, ustress := 0, uliq := 0 }

/-- A turn oracle for the variant 003 early-stop check: every price draw is
100 except the loop's wipe-out draw (access site 12), which is 0.  A 0 draw
lies outside get_stock_price's simulated ranges; with positive prices and a
nonnegative portfolio the wipe-out test only fires on a worthless
portfolio, so the off-range draw is what exercises the loop's stop branch
on this cash-free portfolio. -/
def c5StopRand : Sim003.Rand :=
  { dfear := 0, dliq := 0, dvol := 0
    intelRoll := false
    rallyRoll := false
    dropHit := fun _ => false
    dropVal := fun _ => 1/10
    rallyHit := fun _ => false
    rallyVal := fun _ => 1/20
    price := fun ph _ => if ph = 12 then 0 else 100 }

/-- A variant 003 portfolio holding one share of each stock and no cash,
with a sideways market AI on empty memory: at the oracle's uniform price
100 a 20 percent allocation to each asset makes every rebalance target
equal the held share, so a turn makes no trades and keeps the cash at 0. -/
def c5StopState : Sim003.PState :=
  { assets :=
      [{ ticker := Sim003.Ticker.AAPL, quantity := 1, volatility := 1/5, liquidity := 9/10 },
       { ticker := Sim003.Ticker.GOOG, quantity := 1, volatility := 1/5, liquidity := 9/10 },
       { ticker := Sim003.Ticker.TSLA, quantity := 1, volatility := 1/5, liquidity := 9/10 },
       { ticker := Sim003.Ticker.MSFT, quantity := 1, volatility := 1/5, liquidity := 9/10 },
       { ticker := Sim003.Ticker.SPY, quantity := 1, volatility := 1/5, liquidity := 9/10 }]
    cash := 0
    market_ai :=
      { personality := Sim003.MarketMood.sideways, memory_len := 5, memory := []
        last_allocation := [1/5, 1/5, 1/5, 1/5, 1/5] }
    risk_aversion := 7/10
    fear_index := 1/2
    liquidity := 1/2
    volatility := 1/2 }

/-- A turn input for variant 005 where every live-feed fetch succeeds at
price 100; the pseudo-random fallback stream (price 500 everywhere) and the
other PRNG draws form the seed-determined part of the input. -/
def c6Rand1 : Sim005.Rand :=
  { dfear := 0, dliq := 0, dvol := 0
    rallyRoll := false
    dropHit := fun _ => false
    dropVal := fun _ => 1/10
    rallyHit := fun _ => false
    rallyVal := fun _ => 1/20
    feed := fun _ _ => some 100
    fallback := fun _ _ => 500 }

/-- The same turn input with the identical PRNG part but the live feed now
answering 200 at every access. -/
def c6Rand2 : Sim005.Rand := { c6Rand1 with feed := fun _ _ => some 200 }

/-- The default initial portfolio of variant 005 at concrete init draws. -/
def c6State : Sim003.PState :=
  Sim005.initPortfolio Sim003.MarketMood.sideways (1/2) (3/4) (1/4)

/-- A portfolio of variant 005 as loaded from a saved portfolio file with
cash 0 and one share of each holding (the loader gives every asset
volatility 0.2 and liquidity 0.9); its total value is positive at any
positive prices. -/
def c10State : Sim003.PState :=
  { assets :=
      [{ ticker := Sim003.Ticker.AAPL, quantity := 1, volatility := 1/5, liquidity := 9/10 },
       { ticker := Sim003.Ticker.GOOG, quantity := 1, volatility := 1/5, liquidity := 9/10 },
       { ticker := Sim003.Ticker.TSLA, quantity := 1, volatility := 1/5, liquidity := 9/10 },
       { ticker := Sim003.Ticker.MSFT, quantity := 1, volatility := 1/5, liquidity := 9/10 },
       { ticker := Sim003.Ticker.SPY, quantity := 1, volatility := 1/5, liquidity := 9/10 }]
    cash := 0
    market_ai :=
      { personality := Sim003.MarketMood.bearish, memory_len := 5, memory := []
        last_allocation := [1/2, 1/5, 1/10, 1/10, 1/10] }
    risk_aversion := 7/10
    fear_index := 1/2
    liquidity := 3/4
    volatility := 1/4 }

/-- A turn input for variant 005 in which every feed fetch succeeds at price
100, the market AI's strong drop hits every asset with a 10 percent drop and
no rally fires. -/
def c10Rand : Sim005.Rand :=
  { dfear := 0, dliq := 0, dvol := 0
    rallyRoll := false
    dropHit := fun _ => true
    dropVal := fun _ => 1/10
    rallyHit := fun _ => false
    rallyVal := fun _ => 1/20
    feed := fun _ _ => some 100
    fallback := fun _ _ => 500 }

end BSS.Inputs

namespace BSS

theorem ratFloor_eq (q : ℚ) : q.floor = ⌊q⌋ :=
  (Rat.floor_def' q).trans Rat.floor_def.symm

theorem pyTrunc_of_nonneg {q : ℚ} (h : 0 ≤ q) : pyTrunc q = ⌊q⌋ := by
  simp [pyTrunc, h, ratFloor_eq]

theorem pyTrunc_of_not_nonneg {q : ℚ} (h : ¬ 0 ≤ q) : pyTrunc q = ⌈q⌉ := by
  simp only [pyTrunc, h, if_false, ratFloor_eq, Int.floor_neg, neg_neg]

theorem pyTrunc_nonneg {q : ℚ} (h : 0 ≤ q) : 0 ≤ pyTrunc q := by
  rw [pyTrunc_of_nonneg h]; exact Int.floor_nonneg.mpr h

theorem pyTrunc_cast_le {q : ℚ} (h : 0 ≤ q) : (pyTrunc q : ℚ) ≤ q := by
  rw [pyTrunc_of_nonneg h]; exact Int.floor_le q

theorem le_pyTrunc_cast {q : ℚ} (h : q ≤ 0) : q ≤ (pyTrunc q : ℚ) := by
  by_cases h0 : 0 ≤ q
  · have hq : q = 0 := le_antisymm h h0
    subst hq; simp [pyTrunc_of_nonneg le_rfl]
  · rw [pyTrunc_of_not_nonneg h0]; exact Int.le_ceil q

theorem clamp01_nonneg (q : ℚ) : 0 ≤ clamp01 q := le_max_left 0 _

theorem clamp01_le_one (q : ℚ) : clamp01 q ≤ 1 :=
  max_le (by norm_num) (min_le_left 1 q)

theorem minmax01_nonneg (q : ℚ) : 0 ≤ min 1 (max 0 q) :=
  le_min (by norm_num) (le_max_left 0 q)

theorem minmax01_le_one (q : ℚ) : min 1 (max 0 q) ≤ 1 := min_le_left 1 _

theorem getD_nonneg {α : Type _} [Zero α] [Preorder α] {l : List α}
    (h : ∀ x ∈ l, 0 ≤ x) (i : ℕ) : 0 ≤ l.getD i 0 := by
  induction l generalizing i with
  | nil => simp [List.getD]
  | cons a t ih =>
      cases i with
      | zero => simpa using h a (by simp)
      | succ j =>
          simp only [List.getD_cons_succ]
          exact ih (fun x hx => h x (List.mem_cons_of_mem a hx)) j

theorem sum_map_two_mul (xs : List ℤ) : (xs.map fun x => 2 * x).sum = 2 * xs.sum := by
  induction xs with
  | nil => simp
  | cons a t ih => simp [ih]; ring

theorem sum_replicate_zero (n : ℕ) : (List.replicate n (0 : ℤ)).sum = 0 := by
  induction n with
  | zero => simp
  | succ m ih => simp [List.replicate, ih]

end BSS

namespace BSS

/-- C2: decide_personality is a no-op while the memory holds fewer than
memory_len entries; once the memory is full it sets the personality by the
3-way threshold on the mean recorded outcome; and a full all-true memory
yields the aggressive label in variant 001 and the bullish label in variant
006. -/
theorem claim_C2 :
    (∀ ai : Sim001.CompetitorAI, ai.memory.length < ai.memory_len →
        Sim001.decide_personality ai = ai) ∧
    (∀ ai : Sim001.CompetitorAI, ai.memory_len ≤ ai.memory.length →
        (Sim001.decide_personality ai).personality =
          Spec.personalityOfMean (Sim001.winRate ai.memory)) ∧
    (∀ ai : Sim001.CompetitorAI, 0 < ai.memory_len → ai.memory.length = ai.memory_len →
        (∀ m ∈ ai.memory, m.1 = true) →
        (Sim001.decide_personality ai).personality = Sim001.Personality.aggressive) ∧
    (∀ ai : Sim006.ChessMarketAI, 0 < ai.memory_len → ai.memory.length = ai.memory_len →
        (∀ m ∈ ai.memory, m.1 = true) →
        (Sim006.decide_personality ai).personality = Sim003.MarketMood.bullish) := by
  refine ⟨fun ai h => ?_, fun ai h => ?_, fun ai h0 hlen hall => ?_, fun ai h0 hlen hall => ?_⟩
  · simp [Sim001.decide_personality, h]
  · rw [Sim001.decide_personality, if_neg (not_lt.mpr h)]
    rfl
  · have hfull : ¬ ai.memory.length < ai.memory_len := by omega
    have hfilter : ai.memory.filter (fun m => m.1) = ai.memory :=
      List.filter_eq_self.mpr (fun a ha => hall a ha)
    have hne : (ai.memory.length : ℚ) ≠ 0 := by
      have hpos : 0 < ai.memory.length := by omega
      exact_mod_cast hpos.ne'
    have hrate : Sim001.winRate ai.memory = 1 := by
      rw [Sim001.winRate, hfilter]; exact div_self hne
    simp only [Sim001.decide_personality, hfull, if_false, hrate]
    norm_num
  · have hfull : ¬ ai.memory.length < ai.memory_len := by omega
    have hfilter : ai.memory.filter (fun m => m.1) = ai.memory :=
      List.filter_eq_self.mpr (fun a ha => hall a ha)
    have hne : (ai.memory.length : ℚ) ≠ 0 := by
      have hpos : 0 < ai.memory.length := by omega
      exact_mod_cast hpos.ne'
    have hrate : Sim006.winRate ai.memory = 1 := by
      rw [Sim006.winRate, hfilter]; exact div_self hne
    simp only [Sim006.decide_personality, hfull, if_false, hrate]
    norm_num

end BSS

namespace BSS

/-- C2 witness: a full all-true memory of length 5 concretely yields the
aggressive personality. -/
theorem claim_C2_witness :
    (Sim001.decide_personality
      { personality := Sim001.Personality.deceptive, memory_len := 5
        memory := [(true, []), (true, []), (true, []), (true, []), (true, [])]
        last_player_distribution := [] }).personality = Sim001.Personality.aggressive :=
  claim_C2.2.2.1 _ (by decide) (by decide) (by decide)

/-- C7 counterexample: the input 10 slash 10 slash 10 parses to entries
summing to 30, a positive total different from 100, and the rescaled result
is 33, 33, 33 padded with zeros, which sums to 99, not 100. -/
theorem claim_C7_counterexample :
    parseEntriesInt ['1', '0', '/', '1', '0', '/', '1', '0'] = some [10, 10, 10] ∧
    parse_invest_dist ['1', '0', '/', '1', '0', '/', '1', '0'] = [33, 33, 33, 0, 0, 0, 0] ∧
    (parse_invest_dist ['1', '0', '/', '1', '0', '/', '1', '0']).sum = 99 := by
  with_unfolding_all decide

/-- C7 (amended): an input whose integers sum to 100 is returned unchanged
up to zero-padding; an input whose integers sum to 50 is rescaled by
entry times 100 floor-divided by the total, which doubles every entry
exactly, and the result sums to 100.  (For other positive totals the floor
division can make the result sum to less than 100.) -/
theorem claim_C7 :
    (∀ (cs : List Char) (xs : List ℤ), parseEntriesInt cs = some xs → xs.sum = 100 →
        parse_invest_dist cs = xs ++ List.replicate (7 - xs.length) 0) ∧
    (∀ (cs : List Char) (xs : List ℤ), parseEntriesInt cs = some xs → xs.sum = 50 →
        parse_invest_dist cs = (xs.map fun x => 2 * x) ++ List.replicate (7 - xs.length) 0 ∧
        (parse_invest_dist cs).sum = 100) := by
  constructor
  · intro cs xs hp hsum
    simp only [parse_invest_dist, hp, Option.getD_some, hsum]
    norm_num
  · intro cs xs hp hsum
    have hres : parse_invest_dist cs =
        (xs.map fun x => 2 * x) ++ List.replicate (7 - xs.length) 0 := by
      simp only [parse_invest_dist, hp, Option.getD_some, hsum]
      norm_num
      intro a _
      rw [show a * 100 = 2 * a * 50 by ring, Int.mul_fdiv_cancel _ (by norm_num)]
    refine ⟨hres, ?_⟩
    rw [hres, List.sum_append, sum_map_two_mul, hsum, sum_replicate_zero]
    norm_num

/-- C8 (code evaluation): the counter-investment suggestion of variant 001
raises a TypeError when the maximal allocation entry is at index 1 (the
source computes p plus 0.1 where p is the whole list), and the market-shift
suggestion of variant 003 does the same when the maximal entry is at index
0. -/
theorem claim_C8 :
    Sim001.suggest_competitor_investment [1/10, 6/10, 1/10, 1/10, 1/10, 0, 0] =
      Except.error PyError.typeError ∧
    Sim003.suggest_market_shift [1/2, 1/5, 1/10, 1/10, 1/10] =
      Except.error PyError.typeError := by
  with_unfolding_all decide

end BSS

namespace BSS

/-- C7 witness: the default input summing to 100 is returned unchanged, and
the input 25 slash 25, summing to 50, is doubled entrywise and sums to 100. -/
theorem claim_C7_witness :
    (parse_invest_dist
        ['3','0','/','2','0','/','1','5','/','1','0','/','1','5','/','5','/','5'] =
      [30, 20, 15, 10, 15, 5, 5] ++
        List.replicate (7 - ([30, 20, 15, 10, 15, 5, 5] : List ℤ).length) 0) ∧
    (parse_invest_dist ['2','5','/','2','5'] =
        (([25, 25] : List ℤ).map fun x => 2 * x) ++
          List.replicate (7 - ([25, 25] : List ℤ).length) 0 ∧
      (parse_invest_dist ['2','5','/','2','5']).sum = 100) :=
  ⟨claim_C7.1 _ [30, 20, 15, 10, 15, 5, 5] (by decide) (by decide),
   claim_C7.2 _ [25, 25] (by decide) (by decide)⟩

/-- C4 (amended, variant 001): resolve_market_competition computes exactly
the claim's formula on both sides, with the same formula applied to the
player units and to the competitor units at the shared stress and market:
per entity impact times budget times (1 minus stress times 0.5), times 1.2
under brand_boost, minus the 0.2 times impact times budget market penalty
for marketing, rnd and analytics in regulated, volatile or saturated
markets, truncated to an integer and clamped to at least 0. -/
theorem claim_C4 :
    ∀ s : Sim001.State,
      Sim001.resolve_market_competition s =
        (max 0 (pyTrunc (Spec.claimSideScore s.stress s.current_market s.units)),
         max 0 (pyTrunc (Spec.claimSideScore s.stress s.current_market s.competitor_units))) := by
  intro s
  have hfun : Sim001.unitScore s.stress = Spec.claimUnitScore s.stress := by
    funext u
    unfold Sim001.unitScore Spec.claimUnitScore
    cases hb : u.brand_boost
    · simp [hb]
    · simp [hb]
  unfold Sim001.resolve_market_competition Spec.claimSideScore
  rw [hfun]
  by_cases hm : Sim001.marketPenalized s.current_market
  · have hp : ∀ us : Sim001.Units, Sim001.marketPenalty us =
        (1/5) * (us.marketing.impact * (us.marketing.budget : ℚ)) +
        (1/5) * (us.rnd.impact * (us.rnd.budget : ℚ)) +
        (1/5) * (us.analytics.impact * (us.analytics.budget : ℚ)) := by
      intro us; unfold Sim001.marketPenalty; ring
    simp only [if_pos hm, hp]
  · simp [hm]

end BSS

namespace BSS

/-- C4 counterexample: in variant 002 the two sides are scored differently.
At the concrete initial state (both competitors on the default unit
configuration, stress 0, stable market), the quantity the loop uses as the
competitor-side score, the plain sum of competitor budgets (14200), is not
the value of the claim's formula on those same competitor units (130200). -/
theorem claim_C4_counterexample :
    (((Inputs.c4State.competitors.map Sim002.Competitor.total).sum : ℤ) : ℚ) ≠
      (Inputs.c4State.competitors.map fun c =>
        Spec.claimSideScore002 Inputs.c4State.stress Inputs.c4State.current_market
          c.units).sum := by
  with_unfolding_all decide

set_option maxRecDepth 4000 in
/-- C5 counterexample: in variant 002 the loop never stops early.  With a
unit_config.json that gives the competitors 10-million budgets, the player's
aggregate is wiped to 0 at the end of turn 1, yet the 2-turn run still
executes and records both turns. -/
theorem claim_C5_counterexample :
    ((Sim002.runSim 2 (fun _ => Inputs.c5Rand) [30, 20, 15, 10, 15, 5, 5]
        Inputs.c5State).2.map Sim002.Snap.player_market_share).take 1 = [0] ∧
    (Sim002.runSim 2 (fun _ => Inputs.c5Rand) [30, 20, 15, 10, 15, 5, 5]
        Inputs.c5State).2.length = 2 := by
  with_unfolding_all decide

/-- C6 counterexample: in the live-quote variant 005 the per-turn records
are not determined by the seed and the user inputs.  Two 1-turn runs with
identical PRNG draws (including the fallback price stream) and identical
user inputs, differing only in the live feed's responses (100 versus 200 at
every access), both complete and record different portfolio values (15100
versus 20200). -/
theorem claim_C6_counterexample :
    ((Sim005.runSim 1 (fun _ => Inputs.c6Rand1) [30, 20, 10, 20, 20]
        Inputs.c6State).toOption.map fun p => p.2.map Sim003.Snap.portfolio_value) ≠
      ((Sim005.runSim 1 (fun _ => Inputs.c6Rand2) [30, 20, 10, 20, 20]
        Inputs.c6State).toOption.map fun p => p.2.map Sim003.Snap.portfolio_value) ∧
    (Sim005.runSim 1 (fun _ => Inputs.c6Rand1) [30, 20, 10, 20, 20]
        Inputs.c6State).toOption.isSome = true ∧
    (Sim005.runSim 1 (fun _ => Inputs.c6Rand2) [30, 20, 10, 20, 20]
        Inputs.c6State).toOption.isSome = true := by
  refine ⟨?_, ?_, ?_⟩
  · with_unfolding_all decide
  · with_unfolding_all decide
  · with_unfolding_all decide

/-- C6 (amended): a full run is a function of the seed-derived PRNG draws
together with the external price-feed responses: two runs whose per-turn
inputs (PRNG part and feed part) agree produce identical states and
identical per-turn records. -/
theorem claim_C6 :
    ∀ (turns : ℕ) (rs1 rs2 : ℕ → Sim005.Rand) (d : List ℤ) (s : Sim003.PState),
      (∀ n, rs1 n = rs2 n) →
      Sim005.runSim turns rs1 d s = Sim005.runSim turns rs2 d s := by
  intro turns rs1 rs2 d s h
  rw [funext h]

/-- C6 witness: the congruence applied at a concrete input stream. -/
theorem claim_C6_witness :
    Sim005.runSim 1 (fun _ => Inputs.c6Rand1) [30, 20, 10, 20, 20] Inputs.c6State =
      Sim005.runSim 1 (fun _ => Inputs.c6Rand1) [30, 20, 10, 20, 20] Inputs.c6State :=
  claim_C6 1 (fun _ => Inputs.c6Rand1) (fun _ => Inputs.c6Rand1) [30, 20, 10, 20, 20]
    Inputs.c6State (fun _ => rfl)

/-- C10: asset_allocation divides by the total portfolio value, so on a
nonempty asset list it raises ZeroDivisionError exactly when that total is
0; and the turn reaches that state: from a loaded portfolio with zero cash
and one share per holding (positive total value on entry, so the wipe-out
check of the previous iteration had passed), a strong-drop turn zeroes every
quantity and the allocation call at the end of the same turn fails, before
the loop's wipe-out check can run. -/
theorem claim_C10 :
    (∀ (pr8 pr9 : ℕ → ℚ) (assets : List Sim003.AssetType) (cash : ℚ),
        assets ≠ [] → Sim003.totalValue pr8 assets cash = 0 →
        Sim003.asset_allocation pr8 pr9 assets cash = none) ∧
    (Sim005.portfolio_turn 1 Inputs.c10Rand [30, 20, 10, 20, 20] Inputs.c10State =
        Except.error PyError.zeroDivisionError ∧
      0 < Sim003.totalValue ((Sim005.toOracle Inputs.c10Rand).price 0) Inputs.c10State.assets
          Inputs.c10State.cash) := by
  constructor
  · intro pr8 pr9 assets cash hne htv
    have hemp : assets.isEmpty = false := by
      cases assets with
      | nil => exact absurd rfl hne
      | cons a t => rfl
    simp [Sim003.asset_allocation, hemp, htv]
  · with_unfolding_all decide

/-- C10 witness: the characterisation applied at a concrete wiped-out
portfolio. -/
theorem claim_C10_witness :
    Sim003.asset_allocation (fun _ => 100) (fun _ => 100)
      [{ ticker := Sim003.Ticker.SPY, quantity := 0, volatility := 1/5, liquidity := 9/10 }]
      0 = none :=
  claim_C10.1 (fun _ => 100) (fun _ => 100)
    [{ ticker := Sim003.Ticker.SPY, quantity := 0, volatility := 1/5, liquidity := 9/10 }] 0
    (by decide) (by with_unfolding_all decide)

end BSS

namespace BSS.Sim001

theorem preamble_scalar (t : ℕ) (r : Rand) (s : State) (h : ScalarInv s) :
    ScalarInv (preamble t r s) := by
  simp only [preamble]
  split_ifs <;> exact h

theorem environment_effects_scalar (s : State) (h : ScalarInv s) :
    ScalarInv (environment_effects s) := by
  obtain ⟨h1, h2, h3⟩ := h
  simp only [environment_effects]
  split_ifs <;>
    (try dsimp only) <;>
    refine ⟨?_, ?_, ?_⟩ <;>
    first
      | assumption
      | linarith
      | exact le_min (by norm_num) (by linarith)
      | exact min_le_left _ _

theorem liquidity_event_scalar (r : Rand) (s : State) (hr : r.Valid) (h : ScalarInv s) :
    ScalarInv (liquidity_event r s) := by
  obtain ⟨h1, h2, h3⟩ := h
  obtain ⟨hp1, hp2, _, _⟩ := hr
  simp only [liquidity_event]
  split_ifs <;>
    exact ⟨by first | assumption | exact le_min (by linarith) (by norm_num), h2, h3⟩

theorem tacticsPhase_scalar (t : ℕ) (r : Rand) (s : State) (h : ScalarInv s) :
    ScalarInv (tacticsPhase t r s) := h

theorem advanced_intel_scalar (r : Rand) (s : State) (hr : r.Valid) (h : ScalarInv s) :
    ScalarInv (advanced_intel_operations r s) := by
  obtain ⟨h1, h2, h3⟩ := h
  obtain ⟨_, _, hd1, hd2⟩ := hr
  simp only [advanced_intel_operations]
  split_ifs <;>
    (try dsimp only) <;>
    refine ⟨?_, ?_, ?_⟩ <;>
    first
      | assumption
      | exact le_max_left _ _
      | exact max_le (by norm_num) (by linarith)

theorem brand_maintenance_scalar (s : State) (h : ScalarInv s) :
    ScalarInv (brand_maintenance s) := by
  obtain ⟨h1, h2, h3⟩ := h
  simp only [brand_maintenance]
  split_ifs <;>
    exact ⟨by first | assumption | exact le_max_left _ _ | linarith, h2, h3⟩

theorem resource_management_scalar (d : List ℤ) (s : State) (h : ScalarInv s) :
    ScalarInv (resource_management d s) := by
  simp only [resource_management]
  split_ifs <;> exact brand_maintenance_scalar _ h

theorem calculate_sentiment_mem (s : State) :
    0 ≤ calculate_sentiment s ∧ calculate_sentiment s ≤ 1 := by
  simp only [calculate_sentiment]
  exact ⟨le_max_left _ _, max_le (by norm_num) (min_le_right _ _)⟩

theorem resolve_nonneg (s : State) :
    0 ≤ (resolve_market_competition s).1 ∧ 0 ≤ (resolve_market_competition s).2 := by
  simp only [resolve_market_competition]
  split_ifs <;> exact ⟨le_max_left _ _, le_max_left _ _⟩

theorem lossesOf_nonneg {p c : ℚ} (hp : 0 ≤ p) (hc : 0 ≤ c) :
    0 ≤ (lossesOf p c).1 ∧ 0 ≤ (lossesOf p c).2 := by
  unfold lossesOf
  split_ifs with h
  · exact ⟨pyTrunc_nonneg (mul_nonneg hc (by norm_num)),
      pyTrunc_nonneg (mul_nonneg (by linarith) (by norm_num))⟩
  · exact ⟨pyTrunc_nonneg (mul_nonneg (by linarith [not_lt.mp h]) (by norm_num)),
      pyTrunc_nonneg (mul_nonneg hp (by norm_num))⟩

theorem post_fields (a b : ℤ) (s : State) :
    (post_competition_effects a b s).stress = s.stress ∧
    (post_competition_effects a b s).liquidity = s.liquidity ∧
    (post_competition_effects a b s).sentiment = s.sentiment := by
  simp only [post_competition_effects]
  split_ifs <;> exact ⟨rfl, rfl, rfl⟩

theorem update_ai_fields (a b : ℤ) (s : State) :
    (update_competitor_ai a b s).stress = s.stress ∧
    (update_competitor_ai a b s).liquidity = s.liquidity ∧
    (update_competitor_ai a b s).sentiment = s.sentiment :=
  ⟨rfl, rfl, rfl⟩

end BSS.Sim001

namespace BSS.Sim001

theorem competeCore_scalar (pl cl : ℤ) (sU : State) (hpl : 0 ≤ pl) (h : ScalarInv sU) :
    ScalarInv (competeCore pl cl sU) ∧ (competeCore pl cl sU).stress ≤ 1 ∧
    (competeCore pl cl sU).sentiment = sU.sentiment := by
  obtain ⟨h1, h2, h3⟩ := h
  have hplQ : (0 : ℚ) ≤ (pl : ℚ) := Int.cast_nonneg.mpr hpl
  have hdiv : (0 : ℚ) ≤ (pl : ℚ) / 15000 := by positivity
  simp only [competeCore]
  refine ⟨⟨?_, ?_, ?_⟩, ?_, ?_⟩
  · rw [(update_ai_fields _ _ _).1, (post_fields _ _ _).1]
    dsimp only
    exact le_min (by norm_num) (by linarith)
  · rw [(update_ai_fields _ _ _).2.1, (post_fields _ _ _).2.1]
    dsimp only
    exact le_max_left _ _
  · rw [(update_ai_fields _ _ _).2.1, (post_fields _ _ _).2.1]
    dsimp only
    have hc0 : (0 : ℚ) ≤ 9/100 + (1/20 + (pl : ℚ) / 15000) * (1/2) := by positivity
    exact max_le (by norm_num) (by linarith)
  · rw [(update_ai_fields _ _ _).1, (post_fields _ _ _).1]
    dsimp only
    exact min_le_left _ _
  · rw [(update_ai_fields _ _ _).2.2, (post_fields _ _ _).2.2]

end BSS.Sim001

namespace BSS.Sim001

theorem compete_scalar (r : Rand) (s : State) (h : ScalarInv s) :
    ScalarInv (compete r s) ∧ (compete r s).stress ≤ 1 ∧
    (compete r s).sentiment = s.sentiment := by
  obtain ⟨hsc1, hsc2⟩ := resolve_nonneg s
  have hp : 0 ≤ (if (adjust_behavior s.competitor_ai r.feint_roll).2.feint then
      ((resolve_market_competition s).1 : ℚ) * (9/10)
    else ((resolve_market_competition s).1 : ℚ)) := by
    split_ifs
    · exact mul_nonneg (by exact_mod_cast hsc1) (by norm_num)
    · exact_mod_cast hsc1
  have hc : 0 ≤ (if (adjust_behavior s.competitor_ai r.feint_roll).2.avoid then
      ((resolve_market_competition s).2 : ℚ) * (4/5)
    else ((resolve_market_competition s).2 : ℚ)) := by
    split_ifs
    · exact mul_nonneg (by exact_mod_cast hsc2) (by norm_num)
    · exact_mod_cast hsc2
  have hpl := (lossesOf_nonneg hp hc).1
  simp only [compete]
  exact competeCore_scalar _ _ _ hpl ⟨h.1, h.2.1, h.2.2⟩

theorem runTurn_scalar (t : ℕ) (r : Rand) (d : List ℤ) (s : State)
    (hr : r.Valid) (h : ScalarInv s) :
    ScalarInv (runTurn t r d s).1 ∧
    (runTurn t r d s).1.stress ≤ 1 ∧
    0 ≤ (runTurn t r d s).1.sentiment ∧ (runTurn t r d s).1.sentiment ≤ 1 := by
  have h6 : ScalarInv (resource_management d (advanced_intel_operations r (tacticsPhase t r
      (liquidity_event r (environment_effects (preamble t r s)))))) :=
    resource_management_scalar d _ (advanced_intel_scalar r _ hr (tacticsPhase_scalar t r _
      (liquidity_event_scalar r _ hr (environment_effects_scalar _ (preamble_scalar t r s h)))))
  simp only [runTurn]
  set s6 := resource_management d (advanced_intel_operations r (tacticsPhase t r
    (liquidity_event r (environment_effects (preamble t r s))))) with hs6
  have h8 := compete_scalar r { s6 with sentiment := calculate_sentiment s6 } h6
  exact ⟨h8.1, h8.2.1,
    by rw [h8.2.2]; exact (calculate_sentiment_mem s6).1,
    by rw [h8.2.2]; exact (calculate_sentiment_mem s6).2⟩

end BSS.Sim001

namespace BSS.Sim001

theorem runTurn_snap (t : ℕ) (r : Rand) (d : List ℤ) (s : State) :
    (runTurn t r d s).2 = mkSnap t (runTurn t r d s).1 := rfl

theorem runGo_scalar (rs : ℕ → Rand) (d : List ℤ) :
    ∀ (n t : ℕ) (s : State), (∀ m, (rs m).Valid) → ScalarInv s →
      ∀ snap ∈ (runGo rs d n t s).2,
        0 ≤ snap.sentiment ∧ snap.sentiment ≤ 1 ∧
        0 ≤ snap.stress ∧ snap.stress ≤ 1 ∧
        0 ≤ snap.liquidity ∧ snap.liquidity ≤ 1 := by
  intro n
  induction n with
  | zero => intro t s _ _ snap hsnap; simp [runGo] at hsnap
  | succ m ih =>
      intro t s hv hs snap hsnap
      obtain ⟨⟨hst, hlq, hlq1⟩, hst1, hsen0, hsen1⟩ := runTurn_scalar t (rs t) d s (hv t) hs
      have hsnapBounds :
          0 ≤ (runTurn t (rs t) d s).2.sentiment ∧ (runTurn t (rs t) d s).2.sentiment ≤ 1 ∧
          0 ≤ (runTurn t (rs t) d s).2.stress ∧ (runTurn t (rs t) d s).2.stress ≤ 1 ∧
          0 ≤ (runTurn t (rs t) d s).2.liquidity ∧ (runTurn t (rs t) d s).2.liquidity ≤ 1 := by
        rw [runTurn_snap]
        exact ⟨hsen0, hsen1, hst, hst1, hlq, hlq1⟩
      simp only [runGo] at hsnap
      split_ifs at hsnap with hstop
      · simp only [List.mem_singleton] at hsnap
        subst hsnap
        exact hsnapBounds
      · simp only [List.mem_cons] at hsnap
        rcases hsnap with hhead | htail
        · subst hhead
          exact hsnapBounds
        · exact ih (t + 1) (runTurn t (rs t) d s).1 hv ⟨hst, hlq, hlq1⟩ snap htail

end BSS.Sim001

namespace BSS.Sim002

theorem runTurn_snap_bounds (t : ℕ) (r : Rand) (d : List ℤ) (s : State) :
    0 ≤ (runTurn t r d s).2.player_sentiment ∧ (runTurn t r d s).2.player_sentiment ≤ 1 ∧
    0 ≤ (runTurn t r d s).2.stress ∧ (runTurn t r d s).2.stress ≤ 1 ∧
    0 ≤ (runTurn t r d s).2.liquidity ∧ (runTurn t r d s).2.liquidity ≤ 1 := by
  simp only [runTurn]
  exact ⟨clamp01_nonneg _, clamp01_le_one _, clamp01_nonneg _, clamp01_le_one _,
    clamp01_nonneg _, clamp01_le_one _⟩

theorem runGo_bounds (rs : ℕ → Rand) (d : List ℤ) :
    ∀ (n t : ℕ) (s : State), ∀ snap ∈ (runGo rs d n t s).2,
      0 ≤ snap.player_sentiment ∧ snap.player_sentiment ≤ 1 ∧
      0 ≤ snap.stress ∧ snap.stress ≤ 1 ∧
      0 ≤ snap.liquidity ∧ snap.liquidity ≤ 1 := by
  intro n
  induction n with
  | zero => intro t s snap hsnap; simp [runGo] at hsnap
  | succ m ih =>
      intro t s snap hsnap
      simp only [runGo, List.mem_cons] at hsnap
      rcases hsnap with hhead | htail
      · subst hhead
        exact runTurn_snap_bounds t (rs t) d s
      · exact ih (t + 1) (runTurn t (rs t) d s).1 snap htail

end BSS.Sim002

namespace BSS

/-- C1: in variant 001, under the uniform-draw ranges the random module
guarantees and from any state with nonnegative stress and liquidity in the
range 0 to 1 (as at initialisation), every per-turn record of a run of any
length has sentiment, stress and liquidity within the range 0 to 1; in
variant 002 the same holds for every run with no hypotheses, since the three
scalars are clamped directly before the record is appended. -/
theorem claim_C1 :
    (∀ (turns : ℕ) (rs : ℕ → Sim001.Rand) (d : List ℤ) (s : Sim001.State),
        (∀ m, (rs m).Valid) → Sim001.ScalarInv s →
        ∀ snap ∈ (Sim001.runSim turns rs d s).2,
          0 ≤ snap.sentiment ∧ snap.sentiment ≤ 1 ∧
          0 ≤ snap.stress ∧ snap.stress ≤ 1 ∧
          0 ≤ snap.liquidity ∧ snap.liquidity ≤ 1) ∧
    (∀ (turns : ℕ) (rs : ℕ → Sim002.Rand) (d : List ℤ) (s : Sim002.State),
        ∀ snap ∈ (Sim002.runSim turns rs d s).2,
          0 ≤ snap.player_sentiment ∧ snap.player_sentiment ≤ 1 ∧
          0 ≤ snap.stress ∧ snap.stress ≤ 1 ∧
          0 ≤ snap.liquidity ∧ snap.liquidity ≤ 1) :=
  ⟨fun turns rs d s hv hs => Sim001.runGo_scalar rs d turns 1 s hv hs,
   fun turns rs d s => Sim002.runGo_bounds rs d turns 1 s⟩

end BSS

namespace BSS

/-- C1 witness: the bounds instantiated on a concrete 1-turn run of variant
001 from the default initial state. -/
theorem claim_C1_witness :
    0 ≤ (Sim001.runTurn 1 Inputs.c1Rand [30, 20, 15, 10, 15, 5, 5] Inputs.c1State).2.sentiment ∧
    (Sim001.runTurn 1 Inputs.c1Rand [30, 20, 15, 10, 15, 5, 5] Inputs.c1State).2.sentiment ≤ 1 ∧
    0 ≤ (Sim001.runTurn 1 Inputs.c1Rand [30, 20, 15, 10, 15, 5, 5] Inputs.c1State).2.stress ∧
    (Sim001.runTurn 1 Inputs.c1Rand [30, 20, 15, 10, 15, 5, 5] Inputs.c1State).2.stress ≤ 1 ∧
    0 ≤ (Sim001.runTurn 1 Inputs.c1Rand [30, 20, 15, 10, 15, 5, 5] Inputs.c1State).2.liquidity ∧
    (Sim001.runTurn 1 Inputs.c1Rand [30, 20, 15, 10, 15, 5, 5] Inputs.c1State).2.liquidity ≤ 1 := by
  have hval : ∀ m : ℕ, ((fun _ : ℕ => Inputs.c1Rand) m).Valid := by
    intro m
    simp only [Sim001.Rand.Valid, Inputs.c1Rand]
    norm_num
  have hinv : Sim001.ScalarInv Inputs.c1State := by
    simp only [Sim001.ScalarInv, Inputs.c1State, Sim001.initState]
    norm_num
  have hmem : (Sim001.runTurn 1 Inputs.c1Rand [30, 20, 15, 10, 15, 5, 5] Inputs.c1State).2 ∈
      (Sim001.runSim 1 (fun _ => Inputs.c1Rand) [30, 20, 15, 10, 15, 5, 5] Inputs.c1State).2 := by
    simp only [Sim001.runSim, Sim001.runGo]
    split_ifs <;> exact List.mem_singleton_self _
  exact claim_C1.1 1 (fun _ => Inputs.c1Rand) [30, 20, 15, 10, 15, 5, 5] Inputs.c1State
    hval hinv _ hmem

end BSS

namespace BSS.Sim001

theorem runGo_length_le (rs : ℕ → Rand) (d : List ℤ) :
    ∀ (n t : ℕ) (s : State), (runGo rs d n t s).2.length ≤ n := by
  intro n
  induction n with
  | zero => intro t s; simp [runGo]
  | succ m ih =>
      intro t s
      simp only [runGo]
      split_ifs
      · simp
      · simpa using Nat.succ_le_succ (ih (t + 1) (runTurn t (rs t) d s).1)

theorem runGo_dropLast (rs : ℕ → Rand) (d : List ℤ) :
    ∀ (n t : ℕ) (s : State), ∀ snap ∈ (runGo rs d n t s).2.dropLast,
      snap.market_share ≠ 0 ∧ snap.competitor_share ≠ 0 := by
  intro n
  induction n with
  | zero => intro t s snap h; simp [runGo] at h
  | succ m ih =>
      intro t s snap h
      simp only [runGo] at h
      split_ifs at h with hstop
      · simp at h
      · push_neg at hstop
        cases hrest : (runGo rs d m (t + 1) (runTurn t (rs t) d s).1).2 with
        | nil => rw [hrest] at h; simp at h
        | cons b l =>
            rw [hrest, List.dropLast_cons₂, List.mem_cons] at h
            rcases h with heq | htail
            · subst heq
              rw [runTurn_snap]
              exact hstop
            · exact ih (t + 1) (runTurn t (rs t) d s).1 snap (by rw [hrest]; exact htail)

end BSS.Sim001

namespace BSS.Sim002

theorem runGo_length (rs : ℕ → Rand) (d : List ℤ) :
    ∀ (n t : ℕ) (s : State), (runGo rs d n t s).2.length = n := by
  intro n
  induction n with
  | zero => intro t s; simp [runGo]
  | succ m ih =>
      intro t s
      simp only [runGo, List.length_cons]
      rw [ih (t + 1) (runTurn t (rs t) d s).1]

end BSS.Sim002

namespace BSS.Sim003

theorem portfolioRunGo_stop (rs : ℕ → Rand) (d : List ℤ) (n t : ℕ) (s s' : PState)
    (snap : Snap) (h : portfolio_turn t (rs t) d s = Except.ok (s', snap))
    (hstop : totalValue ((rs t).price 12) s'.assets s'.cash ≤ 0) :
    runGo rs d (n + 1) t s = Except.ok (s', [snap]) := by
  simp only [runGo, h]
  rw [if_pos hstop]

theorem portfolioRunGo_length_le (rs : ℕ → Rand) (d : List ℤ) :
    ∀ (n t : ℕ) (s : PState) (res : PState × List Snap),
      runGo rs d n t s = Except.ok res → res.2.length ≤ n := by
  intro n
  induction n with
  | zero =>
      intro t s res h
      simp only [runGo, Except.ok.injEq] at h
      subst h
      simp
  | succ n ih =>
      intro t s res h
      simp only [runGo] at h
      cases hpt : portfolio_turn t (rs t) d s with
      | error e => rw [hpt] at h; simp at h
      | ok p =>
          obtain ⟨s', snap⟩ := p
          rw [hpt] at h
          dsimp only at h
          split_ifs at h with hc
          · simp only [Except.ok.injEq] at h
            subst h
            simp
          · cases hrec : runGo rs d n (t + 1) s' with
            | error e => rw [hrec] at h; simp at h
            | ok q =>
                obtain ⟨s'', snaps⟩ := q
                rw [hrec] at h
                simp only [Except.ok.injEq] at h
                subst h
                have hlen : snaps.length ≤ n := ih (t + 1) s' (s'', snaps) hrec
                simp only [List.length_cons]
                omega

end BSS.Sim003

namespace BSS

/-- C5 (amended): variant 001 executes at most the requested number of turns
and stops as soon as either side's aggregate reaches 0 at the end of a turn
(every record other than the last shows both aggregates nonzero); variant
002 always executes exactly the requested number of turns, with no early
stop; and variant 003 executes at most the requested number of turns and,
whenever the freshly priced portfolio value at the end of a turn is not
positive, stops immediately with that turn as the run's only remaining
record. -/
theorem claim_C5 :
    (∀ (turns : ℕ) (rs : ℕ → Sim001.Rand) (d : List ℤ) (s : Sim001.State),
        (Sim001.runSim turns rs d s).2.length ≤ turns ∧
        ∀ snap ∈ (Sim001.runSim turns rs d s).2.dropLast,
          snap.market_share ≠ 0 ∧ snap.competitor_share ≠ 0) ∧
    (∀ (turns : ℕ) (rs : ℕ → Sim002.Rand) (d : List ℤ) (s : Sim002.State),
        (Sim002.runSim turns rs d s).2.length = turns) ∧
    (∀ (turns : ℕ) (rs : ℕ → Sim003.Rand) (d : List ℤ) (s : Sim003.PState)
        (res : Sim003.PState × List Sim003.Snap),
        Sim003.runSim turns rs d s = Except.ok res → res.2.length ≤ turns) ∧
    (∀ (rs : ℕ → Sim003.Rand) (d : List ℤ) (n t : ℕ) (s s' : Sim003.PState)
        (snap : Sim003.Snap),
        Sim003.portfolio_turn t (rs t) d s = Except.ok (s', snap) →
        Sim003.totalValue ((rs t).price 12) s'.assets s'.cash ≤ 0 →
        Sim003.runGo rs d (n + 1) t s = Except.ok (s', [snap])) :=
  ⟨fun turns rs d s =>
      ⟨Sim001.runGo_length_le rs d turns 1 s, Sim001.runGo_dropLast rs d turns 1 s⟩,
   fun turns rs d s => Sim002.runGo_length rs d turns 1 s,
   fun turns rs d s res h => Sim003.portfolioRunGo_length_le rs d turns 1 s res h,
   fun rs d n t s s' snap h hstop => Sim003.portfolioRunGo_stop rs d n t s s' snap h hstop⟩

end BSS

namespace BSS

set_option maxHeartbeats 2000000 in
set_option maxRecDepth 4000 in
/-- C5 witness: in a concrete 2-turn run of variant 001 from the default
initial state, the first record is not the last one and the early-stop
property instantiates to show both aggregates are nonzero there; and a
concrete 5-turn run of variant 003 from the cash-free portfolio under the
wipe-out oracle stops after recording exactly one turn. -/
theorem claim_C5_witness :
    ((Sim001.runTurn 1 Inputs.c1Rand [30, 20, 15, 10, 15, 5, 5]
        Inputs.c1State).2.market_share ≠ 0 ∧
      (Sim001.runTurn 1 Inputs.c1Rand [30, 20, 15, 10, 15, 5, 5]
        Inputs.c1State).2.competitor_share ≠ 0) ∧
    ((Sim003.runSim 5 (fun _ => Inputs.c5StopRand) [20, 20, 20, 20, 20]
        Inputs.c5StopState).toOption.map fun p => p.2.length) = some 1 := by
  constructor
  · have hstop : ¬ ((Sim001.runTurn 1 Inputs.c1Rand [30, 20, 15, 10, 15, 5, 5]
          Inputs.c1State).1.units.total = 0 ∨
        (Sim001.runTurn 1 Inputs.c1Rand [30, 20, 15, 10, 15, 5, 5]
          Inputs.c1State).1.competitor_units.total = 0) := by
      with_unfolding_all decide
    have hmem : (Sim001.runTurn 1 Inputs.c1Rand [30, 20, 15, 10, 15, 5, 5] Inputs.c1State).2 ∈
        (Sim001.runSim 2 (fun _ => Inputs.c1Rand) [30, 20, 15, 10, 15, 5, 5]
          Inputs.c1State).2.dropLast := by
      simp only [Sim001.runSim, Sim001.runGo]
      rw [if_neg hstop]
      split_ifs <;>
        (dsimp only; rw [List.dropLast_cons₂, List.dropLast_single];
          exact List.mem_singleton_self _)
    exact (claim_C5.1 2 (fun _ => Inputs.c1Rand) [30, 20, 15, 10, 15, 5, 5] Inputs.c1State).2
      _ hmem
  · have h5 : Sim003.runGo (fun _ => Inputs.c5StopRand) [20, 20, 20, 20, 20] 5 1
        Inputs.c5StopState = Except.ok
          ({ assets :=
              [{ ticker := Sim003.Ticker.AAPL, quantity := 1,
                 volatility := 1/5, liquidity := 9/10 },
               { ticker := Sim003.Ticker.GOOG, quantity := 1,
                 volatility := 1/5, liquidity := 9/10 },
               { ticker := Sim003.Ticker.TSLA, quantity := 1,
                 volatility := 1/5, liquidity := 9/10 },
               { ticker := Sim003.Ticker.MSFT, quantity := 1,
                 volatility := 1/5, liquidity := 9/10 },
               { ticker := Sim003.Ticker.SPY, quantity := 1,
                 volatility := 1/5, liquidity := 9/10 }]
             cash := 0
             market_ai :=
               { personality := Sim003.MarketMood.sideways, memory_len := 5
                 memory := [(false, [1/5, 1/5, 1/5, 1/5, 1/5])]
                 last_allocation := [1/5, 1/5, 1/5, 1/5, 1/5] }
             risk_aversion := 7/10
             fear_index := 1/2
             liquidity := 1/2
             volatility := 1/2 },
           [{ turn := 1, portfolio_value := 500, cash := 0, market_fear := 1/2
              market_liquidity := 1/2, market_volatility := 1/2
              ai_personality := Sim003.MarketMood.sideways, beat_market := false }]) :=
      claim_C5.2.2.2 (fun _ => Inputs.c5StopRand) [20, 20, 20, 20, 20] 4 1
        Inputs.c5StopState _ _
        (by with_unfolding_all decide) (by with_unfolding_all decide)
    simp only [Sim003.runSim]
    rw [h5]
    rfl

end BSS

namespace BSS.Sim001

theorem apply_losses_NN (units : Units) (losses : ℤ) (h : UnitsNN units) :
    UnitsNN (apply_losses units losses) := by
  simp only [apply_losses]
  split_ifs
  · exact h
  · exact ⟨le_max_left _ _, le_max_left _ _, le_max_left _ _, le_max_left _ _,
      le_max_left _ _, le_max_left _ _, le_max_left _ _⟩

theorem preamble_budget (t : ℕ) (r : Rand) (s : State) (h : BudgetInv s) :
    BudgetInv (preamble t r s) := by
  simp only [preamble]
  split_ifs <;> exact h

theorem environment_effects_budget (s : State) (h : BudgetInv s) :
    BudgetInv (environment_effects s) := by
  obtain ⟨⟨a1, a2, a3, a4, a5, a6, a7⟩, ⟨b1, b2, b3, b4, b5, b6, b7⟩, hip, hcash⟩ := h
  simp only [environment_effects]
  split_ifs <;>
    refine ⟨⟨?_, ?_, ?_, ?_, ?_, ?_, ?_⟩, ⟨?_, ?_, ?_, ?_, ?_, ?_, ?_⟩, ?_, ?_⟩ <;>
    first
      | assumption
      | exact le_max_left _ _

theorem liquidity_event_budget (r : Rand) (s : State) (h : BudgetInv s) :
    BudgetInv (liquidity_event r s) := by
  simp only [liquidity_event]
  split_ifs <;> exact h

theorem tacticsPhase_budget (t : ℕ) (r : Rand) (s : State) (h : BudgetInv s) :
    BudgetInv (tacticsPhase t r s) := h

theorem advanced_intel_budget (r : Rand) (s : State) (h : BudgetInv s) :
    BudgetInv (advanced_intel_operations r s) := by
  simp only [advanced_intel_operations]
  split_ifs <;> exact h

theorem brand_maintenance_budget (s : State) (h : BudgetInv s) :
    BudgetInv (brand_maintenance s) := by
  obtain ⟨ha, hb, hip, hcash⟩ := h
  simp only [brand_maintenance]
  split_ifs with h1 h2 <;>
    exact ⟨ha, hb, hip, by first | assumption | (dsimp only; omega)⟩

theorem resource_management_budget (d : List ℤ) (s : State)
    (hd : ∀ x ∈ d, 0 ≤ x) (h : BudgetInv s) : BudgetInv (resource_management d s) := by
  obtain ⟨⟨a1, a2, a3, a4, a5, a6, a7⟩, hb, hip, hcash⟩ := h
  simp only [resource_management]
  split_ifs with hg
  · have hgain : 0 ≤ pyTrunc ((s.investment_points : ℚ) * (1/10)) :=
      pyTrunc_nonneg (mul_nonneg (by exact_mod_cast hip) (by norm_num))
    have hib : ∀ i : ℕ,
        0 ≤ pyTrunc ((pyTrunc ((s.investment_points : ℚ) * (1/10)) : ℚ) *
          ((d.getD i 0 : ℤ) : ℚ) / 100) := by
      intro i
      refine pyTrunc_nonneg (div_nonneg (mul_nonneg ?_ ?_) (by norm_num))
      · exact_mod_cast hgain
      · exact_mod_cast getD_nonneg hd i
    obtain ⟨hg1, hg2⟩ := hg
    refine brand_maintenance_budget _
      ⟨⟨?_, ?_, ?_, ?_, ?_, ?_, ?_⟩, hb, hip, ?_⟩
    · exact add_nonneg a1 (hib 0)
    · exact add_nonneg a2 (hib 1)
    · exact add_nonneg a3 (hib 2)
    · exact add_nonneg a4 (hib 3)
    · exact add_nonneg a5 (hib 4)
    · exact add_nonneg a6 (hib 5)
    · exact add_nonneg a7 (hib 6)
    · show 0 ≤ s.cash - pyTrunc ((s.investment_points : ℚ) * (1/10)) * 5
      omega
  · exact brand_maintenance_budget _ ⟨⟨a1, a2, a3, a4, a5, a6, a7⟩, hb, hip, hcash⟩

theorem post_budget (a b : ℤ) (s : State) (h : BudgetInv s) :
    BudgetInv (post_competition_effects a b s) := by
  obtain ⟨ha, hb, hip, hcash⟩ := h
  simp only [post_competition_effects]
  split_ifs <;>
    exact ⟨ha, hb, le_trans (by norm_num) (le_max_left _ _),
      by first | assumption | exact le_max_left _ _⟩

theorem update_ai_budget (a b : ℤ) (s : State) (h : BudgetInv s) :
    BudgetInv (update_competitor_ai a b s) := h

theorem competeCore_budget (pl cl : ℤ) (s : State) (h : BudgetInv s) :
    BudgetInv (competeCore pl cl s) := by
  simp only [competeCore]
  exact update_ai_budget _ _ _ (post_budget _ _ _
    ⟨apply_losses_NN _ _ h.1, apply_losses_NN _ _ h.2.1, h.2.2.1, h.2.2.2⟩)

theorem compete_budget (r : Rand) (s : State) (h : BudgetInv s) :
    BudgetInv (compete r s) := by
  simp only [compete]
  exact competeCore_budget _ _ _ ⟨h.1, h.2.1, h.2.2.1, h.2.2.2⟩

theorem runTurn_budget (t : ℕ) (r : Rand) (d : List ℤ) (s : State)
    (hd : ∀ x ∈ d, 0 ≤ x) (h : BudgetInv s) : BudgetInv (runTurn t r d s).1 := by
  simp only [runTurn]
  exact compete_budget r _ (resource_management_budget d _ hd
    (advanced_intel_budget r _ (tacticsPhase_budget t r _
      (liquidity_event_budget r _ (environment_effects_budget _
        (preamble_budget t r s h))))))

end BSS.Sim001

namespace BSS

theorem idxMap_forall {α β : Type _} (P : β → Prop) (f : ℕ → α → β) :
    ∀ (i : ℕ) (l : List α), (∀ (j : ℕ) (a : α), a ∈ l → P (f j a)) →
      ∀ b ∈ idxMap f i l, P b := by
  intro i l
  induction l generalizing i with
  | nil => intro _ b hb; simp [idxMap] at hb
  | cons a t ih =>
      intro h b hb
      simp only [idxMap, List.mem_cons] at hb
      rcases hb with rfl | hb
      · exact h i a (by simp)
      · exact ih (i + 1) (fun j x hx => h j x (List.mem_cons_of_mem _ hx)) b hb

end BSS

namespace BSS.Sim003

theorem idxMap_sum_nonneg (pr : ℕ → ℚ) (hp : ∀ i, 0 < pr i) :
    ∀ (i : ℕ) (l : List AssetType), (∀ a ∈ l, 0 ≤ a.quantity) →
      0 ≤ (idxMap (fun i a => (a.quantity : ℚ) * pr i) i l).sum := by
  intro i l
  induction l generalizing i with
  | nil => intro _; simp [idxMap]
  | cons a t ih =>
      intro h
      simp only [idxMap, List.sum_cons]
      refine add_nonneg (mul_nonneg ?_ (le_of_lt (hp i))) ?_
      · exact_mod_cast h a (by simp)
      · exact ih (i + 1) fun x hx => h x (List.mem_cons_of_mem _ hx)

theorem totalValue_nonneg (pr : ℕ → ℚ) (assets : List AssetType) (cash : ℚ)
    (hq : assetsNN assets) (hp : ∀ i, 0 < pr i) (hc : 0 ≤ cash) :
    0 ≤ totalValue pr assets cash := by
  unfold totalValue
  exact add_nonneg hc (idxMap_sum_nonneg pr hp 0 assets hq)

theorem tradeStep_nonneg (ap : List ℚ) (tv : ℚ) (r : Rand) (i : ℕ) (a : AssetType)
    (cash : ℚ) (hap : ∀ x ∈ ap, 0 ≤ x) (htv : 0 ≤ tv) (hp : ∀ ph j, 0 < r.price ph j)
    (ha : 0 ≤ a.quantity) (hc : 0 ≤ cash) :
    ∀ res, tradeStep ap tv r i a cash = Except.ok res → 0 ≤ res.1.quantity ∧ 0 ≤ res.2 := by
  intro res hres
  have hqt : 0 ≤ tv * ap.getD i 0 / r.price 4 i :=
    div_nonneg (mul_nonneg htv (getD_nonneg hap i)) (le_of_lt (hp 4 i))
  simp only [tradeStep] at hres
  rw [if_pos (hp 3 i), if_neg (ne_of_gt (hp 4 i))] at hres
  dsimp only at hres
  split_ifs at hres with h1 h2 h3
  · simp only [Except.ok.injEq] at hres
    subst hres
    constructor
    · have : (0 : ℤ) ≤ pyTrunc (tv * ap.getD i 0 / r.price 4 i - (a.quantity : ℚ)) := le_of_lt h1
      dsimp only
      omega
    · dsimp only
      linarith
  · simp only [Except.ok.injEq] at hres
    subst hres
    exact ⟨ha, hc⟩
  · simp only [Except.ok.injEq] at hres
    subst hres
    constructor
    · have hneg : tv * ap.getD i 0 / r.price 4 i - (a.quantity : ℚ) ≤ 0 := by
        by_contra hpos
        exact absurd (pyTrunc_nonneg (le_of_lt (not_le.mp hpos))) (not_le.mpr h3)
      have hd := le_pyTrunc_cast hneg
      have : (0 : ℚ) ≤ (a.quantity : ℚ) +
          (pyTrunc (tv * ap.getD i 0 / r.price 4 i - (a.quantity : ℚ)) : ℚ) := by linarith
      dsimp only
      exact_mod_cast this
    · have hrev : 0 ≤ (-(pyTrunc (tv * ap.getD i 0 / r.price 4 i - (a.quantity : ℚ)) : ℚ)) *
          r.price 5 i := by
        refine mul_nonneg ?_ (le_of_lt (hp 5 i))
        have : (pyTrunc (tv * ap.getD i 0 / r.price 4 i - (a.quantity : ℚ)) : ℚ) ≤ 0 := by
          exact_mod_cast le_of_lt h3
        linarith
      dsimp only
      linarith
  · simp only [Except.ok.injEq] at hres
    subst hres
    exact ⟨ha, hc⟩

end BSS.Sim003

namespace BSS.Sim003

theorem tradesGo_nonneg (ap : List ℚ) (tv : ℚ) (r : Rand)
    (hap : ∀ x ∈ ap, 0 ≤ x) (htv : 0 ≤ tv) (hp : ∀ ph j, 0 < r.price ph j) :
    ∀ (l : List AssetType) (i : ℕ) (cash : ℚ), (∀ a ∈ l, 0 ≤ a.quantity) → 0 ≤ cash →
      ∀ res, tradesGo ap tv r i l cash = Except.ok res →
        (∀ a ∈ res.1, 0 ≤ a.quantity) ∧ 0 ≤ res.2 := by
  intro l
  induction l with
  | nil =>
      intro i cash _ hc res hres
      simp only [tradesGo, Except.ok.injEq] at hres
      subst hres
      exact ⟨by simp, hc⟩
  | cons a t ih =>
      intro i cash hq hc res hres
      simp only [tradesGo] at hres
      cases hts : tradeStep ap tv r i a cash with
      | error e => rw [hts] at hres; simp at hres
      | ok p =>
          obtain ⟨a', cash'⟩ := p
          rw [hts] at hres
          dsimp only at hres
          obtain ⟨ha', hc'⟩ :=
            tradeStep_nonneg ap tv r i a cash hap htv hp (hq a (by simp)) hc (a', cash') hts
          cases hrest : tradesGo ap tv r (i + 1) t cash' with
          | error e => rw [hrest] at hres; simp at hres
          | ok q =>
              obtain ⟨rest', cash''⟩ := q
              rw [hrest] at hres
              simp only [Except.ok.injEq] at hres
              subst hres
              obtain ⟨hq2, hc2⟩ := ih (i + 1) cash'
                (fun x hx => hq x (List.mem_cons_of_mem _ hx)) hc' (rest', cash'') hrest
              refine ⟨?_, hc2⟩
              intro x hx
              rcases List.mem_cons.1 hx with rfl | hx
              · exact ha'
              · exact hq2 x hx

theorem applyDrop_NN (r : Rand) (assets : List AssetType) (h : assetsNN assets) :
    assetsNN (applyDrop r assets) := by
  unfold applyDrop assetsNN
  refine idxMap_forall (fun a : AssetType => 0 ≤ a.quantity) _ 0 assets (fun j a ha => ?_)
  split_ifs
  · exact le_max_left _ _
  · exact h a ha

theorem applyRally_NN (r : Rand) (assets : List AssetType)
    (hr : ∀ i, 0 ≤ r.rallyVal i) (h : assetsNN assets) :
    assetsNN (applyRally r assets) := by
  unfold applyRally assetsNN
  refine idxMap_forall (fun a : AssetType => 0 ≤ a.quantity) _ 0 assets (fun j a ha => ?_)
  split_ifs
  · refine pyTrunc_nonneg (mul_nonneg ?_ (by linarith [hr j]))
    exact_mod_cast h a ha
  · exact h a ha

theorem portfolio_turn_nonneg (turn : ℕ) (r : Rand) (d : List ℤ) (s : PState)
    (hd : ∀ x ∈ d, 0 ≤ x) (hp : ∀ ph i, 0 < r.price ph i) (hrv : ∀ i, 0 ≤ r.rallyVal i)
    (hq : assetsNN s.assets) (hc : 0 ≤ s.cash) :
    ∀ res, portfolio_turn turn r d s = Except.ok res →
      assetsNN res.1.assets ∧ 0 ≤ res.1.cash := by
  intro res hres
  simp only [portfolio_turn] at hres
  have hap : ∀ x ∈ d.map fun x : ℤ => (x : ℚ) / 100, 0 ≤ x := by
    intro x hx
    obtain ⟨y, hy, rfl⟩ := List.mem_map.1 hx
    have : (0 : ℚ) ≤ (y : ℚ) := by exact_mod_cast hd y hy
    positivity
  have htv : 0 ≤ totalValue (r.price 2) (update_market_conditions r s).assets
      (update_market_conditions r s).cash :=
    totalValue_nonneg _ _ _ hq (hp 2) hc
  cases hts : tradesGo (d.map fun x : ℤ => (x : ℚ) / 100)
      (totalValue (r.price 2) (update_market_conditions r s).assets
        (update_market_conditions r s).cash)
      r 0 (update_market_conditions r s).assets (update_market_conditions r s).cash with
  | error e => rw [hts] at hres; simp at hres
  | ok p =>
      obtain ⟨assets', cash'⟩ := p
      rw [hts] at hres
      obtain ⟨hq1, hc1⟩ := tradesGo_nonneg _ _ r hap htv hp _ 0 _ hq hc (assets', cash') hts
      dsimp only at hres
      split_ifs at hres with h1 h2 h2
      all_goals
        cases halloc : asset_allocation (r.price 8) (r.price 9) _ _ with
        | none =>
            rw [halloc] at hres
            simp at hres
        | some alloc =>
            rw [halloc] at hres
            simp only [Except.ok.injEq] at hres
            subst hres
            refine ⟨?_, hc1⟩
            first
            | exact applyRally_NN r _ hrv (applyDrop_NN r _ hq1)
            | exact applyRally_NN r _ hrv hq1
            | exact applyDrop_NN r _ hq1
            | exact hq1

end BSS.Sim003

namespace BSS

/-- C3: entity budgets and asset quantities never go negative, in its
amended form: the claim as stated is false for variant 003, whose
rebalancing sells more than is held when the allocation distribution has a
negative entry (see the counterexample), so the variant 003 part adds the
hypothesis that every allocation entry is nonnegative.  Part 1: variant
001's apply_losses keeps all seven budgets nonnegative.  Part 2: a full
variant 001 turn keeps all budgets, investment points and cash nonnegative
whenever the invest distribution entries are nonnegative.  Part 3: a
variant 003 portfolio turn that returns normally keeps every asset
quantity and the cash nonnegative whenever the allocation entries are
nonnegative, every price draw is positive and the rally fractions are
nonnegative. -/
theorem claim_C3 :
    (∀ (units : Sim001.Units) (losses : ℤ), Sim001.UnitsNN units →
        Sim001.UnitsNN (Sim001.apply_losses units losses)) ∧
    (∀ (t : ℕ) (r : Sim001.Rand) (d : List ℤ) (s : Sim001.State),
        (∀ x ∈ d, 0 ≤ x) → Sim001.BudgetInv s →
        Sim001.BudgetInv (Sim001.runTurn t r d s).1) ∧
    (∀ (turn : ℕ) (r : Sim003.Rand) (d : List ℤ) (s : Sim003.PState),
        (∀ x ∈ d, 0 ≤ x) → (∀ ph i, 0 < r.price ph i) → (∀ i, 0 ≤ r.rallyVal i) →
        Sim003.assetsNN s.assets → 0 ≤ s.cash →
        ∀ res, Sim003.portfolio_turn turn r d s = Except.ok res →
          Sim003.assetsNN res.1.assets ∧ 0 ≤ res.1.cash) :=
  ⟨fun units losses h => Sim001.apply_losses_NN units losses h,
   fun t r d s hd h => Sim001.runTurn_budget t r d s hd h,
   fun turn r d s hd hp hrv hq hc => Sim003.portfolio_turn_nonneg turn r d s hd hp hrv hq hc⟩

/-- C3 as stated is false: the allocation parser keeps negative entries (it
only rescales when the sum differs from 100), and a variant 003 turn run
with the parsed distribution -5/105 sells 31 AAPL shares while only 20 are
held, leaving the first asset quantity at -11. -/
theorem claim_C3_counterexample :
    parse_allocation ['-', '5', '/', '1', '0', '5'] = [-5, 105, 0, 0, 0] ∧
    (Sim003.portfolio_turn 1 Inputs.c3Rand (parse_allocation ['-', '5', '/', '1', '0', '5'])
        Inputs.c3State).toOption.map
      (fun p => p.1.assets.map Sim003.AssetType.quantity) = some [-11, 3, 0, 0, 0] ∧
    (-11 : ℤ) < 0 := by
  refine ⟨?_, ?_, by norm_num⟩ <;> with_unfolding_all decide

/-- The three parts of the amended C3 hold at concrete inputs: the default
variant 001 state under a 500-point loss and under a full turn with the
default invest distribution, and the default variant 003 portfolio under a
turn with the default allocation distribution. -/
theorem claim_C3_witness :
    Sim001.UnitsNN (Sim001.apply_losses Inputs.c1State.units 500) ∧
    Sim001.BudgetInv (Sim001.runTurn 1 Inputs.c1Rand [30, 20, 15, 10, 15, 5, 5]
      Inputs.c1State).1 ∧
    (Sim003.portfolio_turn 1 Inputs.c3Rand [30, 20, 10, 20, 20] Inputs.c3State).toOption.elim
      False (fun p => Sim003.assetsNN p.1.assets ∧ 0 ≤ p.1.cash) := by
  refine ⟨claim_C3.1 Inputs.c1State.units 500
      (by simp only [Sim001.UnitsNN]; with_unfolding_all decide),
    claim_C3.2.1 1 Inputs.c1Rand [30, 20, 15, 10, 15, 5, 5] Inputs.c1State
      (by with_unfolding_all decide)
      (by simp only [Sim001.BudgetInv, Sim001.UnitsNN]; with_unfolding_all decide), ?_⟩
  have hsome : (Sim003.portfolio_turn 1 Inputs.c3Rand [30, 20, 10, 20, 20]
      Inputs.c3State).toOption.isSome = true := by
    with_unfolding_all decide
  have hp : ∀ ph i, 0 < Inputs.c3Rand.price ph i := by
    intro ph i
    simp only [Inputs.c3Rand]
    split_ifs
    · norm_num
    · rcases i with _ | _ | _ | _ | _ | i <;> norm_num [List.getD]
  cases hok : Sim003.portfolio_turn 1 Inputs.c3Rand [30, 20, 10, 20, 20] Inputs.c3State with
  | error e =>
      rw [hok] at hsome
      simp [Except.toOption] at hsome
  | ok p =>
      simp only [Except.toOption, Option.elim]
      exact claim_C3.2.2 1 Inputs.c3Rand [30, 20, 10, 20, 20] Inputs.c3State
        (by with_unfolding_all decide) hp
        (fun i => by norm_num [Inputs.c3Rand])
        (by simp only [Sim003.assetsNN]; with_unfolding_all decide)
        (by with_unfolding_all decide) p hok

end BSS
